import Mathlib

/-!
Verification of the Bounce Engine physics core against its specification.

The definitions below are shallow embeddings of the JavaScript source:
`RigidBody.fixedUpdate`, the fixed-timestep accumulator of `Engine.gameLoop`,
and the `Physics` system (`detectCollisions`, `resolveCollision`, `raycast`,
`raycastBox`, `addCollider`, `removeCollider`) together with the collider
data model (`Collider`, `BoxCollider`, `CircleCollider`, `GameObject`,
`Component`).  Numbers are modelled as rationals; where the source can
produce JavaScript `Infinity`/`NaN` (division by a zero direction component
in the raycaster) an explicit extended-number type `JSNum` is used.
-/

set_option maxHeartbeats 1600000

namespace BounceEngine

/-- Clamp one velocity component against an optional bound, as in
`Math.max(-maxV, Math.min(maxV, v))`; `none` models the source default
`Infinity` (no clamping). -/
def clampOpt (bound : Option ℚ) (v : ℚ) : ℚ :=
  match bound with
  | none => v
  | some m => max (-m) (min m v)

/-- State of a `RigidBody` component (fields of the constructor in
`src/physics/RigidBody.js`). `maxVelocityX/Y = none` encodes the default
`Infinity` bound. -/
structure RBState where
  velocityX : ℚ
  velocityY : ℚ
  accelerationX : ℚ
  accelerationY : ℚ
  forceX : ℚ
  forceY : ℚ
  mass : ℚ
  drag : ℚ
  gravityScale : ℚ
  useGravity : Bool
  isKinematic : Bool
  maxVelocityX : Option ℚ
  maxVelocityY : Option ℚ
  isGrounded : Bool
  isTouchingWall : Bool
deriving DecidableEq, Repr, Inhabited

/-- `RigidBody.fixedUpdate(dt)`, translated statement by statement.
`gravity?` is `this.scene?.physics` seen as its `gravity` field — `none`
when the owning scene has no physics system, in which case the gravity
branch is skipped (`if (this.useGravity && physics)`).  The owning game
position `(goX, goY)` of the owning object is threaded through explicitly. -/
def RBState.fixedUpdate (rb : RBState) (gravity? : Option ℚ) (dt : ℚ)
    (goX goY : ℚ) : RBState × ℚ × ℚ :=
  if rb.isKinematic then (rb, goX, goY)
  else
    -- Apply gravity
    let accY0 : ℚ :=
      match gravity? with
      | some g =>
          if rb.useGravity then rb.accelerationY + g * rb.gravityScale
          else rb.accelerationY
      | none => rb.accelerationY
    -- Apply forces
    let accX : ℚ := rb.accelerationX + rb.forceX / rb.mass
    let accY : ℚ := accY0 + rb.forceY / rb.mass
    -- Update velocity
    let vX0 : ℚ := rb.velocityX + accX * dt
    let vY0 : ℚ := rb.velocityY + accY * dt
    -- Apply drag
    let vX1 : ℚ := vX0 * (1 - rb.drag)
    let vY1 : ℚ := vY0 * (1 - rb.drag)
    -- Clamp velocity
    let vX : ℚ := clampOpt rb.maxVelocityX vX1
    let vY : ℚ := clampOpt rb.maxVelocityY vY1
    -- Update position, reset forces and acceleration
    ({ rb with
        velocityX := vX, velocityY := vY,
        accelerationX := 0, accelerationY := 0,
        forceX := 0, forceY := 0 },
      goX + vX * dt, goY + vY * dt)

/-- The integration step exactly as the specification words it (spec section
4.2, steps 1–7): gravity into vertical acceleration, `pendingForce / mass`
into acceleration, `velocity += acceleration * dt`, `velocity *= (1 - drag)`,
per-component clamp, `position += velocity * dt`, reset of pending force and
acceleration.  Used only to compare the source translation against the
wording of the spec. -/
def specIntegrationStep (gravity dt : ℚ) (rb : RBState) (goX goY : ℚ) :
    RBState × ℚ × ℚ :=
  let a1x : ℚ := rb.accelerationX
  let a1y : ℚ :=
    if rb.useGravity then rb.accelerationY + gravity * rb.gravityScale
    else rb.accelerationY
  let a2x : ℚ := a1x + rb.forceX / rb.mass
  let a2y : ℚ := a1y + rb.forceY / rb.mass
  let v1x : ℚ := rb.velocityX + a2x * dt
  let v1y : ℚ := rb.velocityY + a2y * dt
  let v2x : ℚ := v1x * (1 - rb.drag)
  let v2y : ℚ := v1y * (1 - rb.drag)
  let v3x : ℚ := clampOpt rb.maxVelocityX v2x
  let v3y : ℚ := clampOpt rb.maxVelocityY v2y
  ({ rb with
      velocityX := v3x, velocityY := v3y,
      accelerationX := 0, accelerationY := 0,
      forceX := 0, forceY := 0 },
    goX + v3x * dt, goY + v3y * dt)

/-- The `while (this.accumulator >= this.fixedDeltaTime)` loop of
`Engine.gameLoop`, as a fuel-indexed recursion: returns the number of
physics ticks run this frame and the accumulator left over.  Each
iteration runs one tick and subtracts one `tick` from the accumulator;
`fuel` only bounds the number of iterations (the loop itself terminates
because the accumulator strictly decreases). -/
def accumLoop : ℕ → ℚ → ℚ → ℕ × ℚ
  | 0, acc, _ => (0, acc)
  | fuel + 1, acc, tick =>
    if tick ≤ acc then
      let r := accumLoop fuel (acc - tick) tick
      (r.1 + 1, r.2)
    else (0, acc)

/-- The fixed-timestep part of one `Engine.gameLoop` frame:
`deltaTime = Math.min((currentTime - lastTime) / 1000, 0.1)` (timestamps in
milliseconds), `accumulator += deltaTime`, then the tick loop. -/
def gameFrame (fuel : ℕ) (acc currentTime lastTime tick : ℚ) : ℕ × ℚ :=
  let deltaTime : ℚ := min ((currentTime - lastTime) / 1000) (1/10)
  accumLoop fuel (acc + deltaTime) tick

/-- Characterization of the accumulator loop: with positive tick length and
enough fuel it runs `⌊acc / tick⌋₊` ticks and leaves `acc - n * tick`. -/
theorem accumLoop_eq (fuel : ℕ) :
    ∀ acc tick : ℚ, 0 < tick → 0 ≤ acc → acc < (fuel : ℚ) * tick →
    accumLoop fuel acc tick =
      (⌊acc / tick⌋₊, acc - (⌊acc / tick⌋₊ : ℚ) * tick) := by
  induction fuel with
  | zero =>
    intro acc tick ht ha hf
    norm_num at hf
    linarith
  | succ n ih =>
    intro acc tick ht ha hf
    by_cases h : tick ≤ acc
    · have ha2 : 0 ≤ acc - tick := by linarith
      have hf2 : acc - tick < (n : ℚ) * tick := by push_cast at hf ⊢; linarith
      have hrec := ih (acc - tick) tick ht ha2 hf2
      have hone : (1 : ℚ) ≤ acc / tick := (le_div_iff₀ ht).2 (by linarith)
      have hn1 : 1 ≤ ⌊acc / tick⌋₊ := Nat.le_floor (by exact_mod_cast hone)
      have hdiv : (acc - tick) / tick = acc / tick - 1 := by
        field_simp
      have hfl : ⌊(acc - tick) / tick⌋₊ = ⌊acc / tick⌋₊ - 1 := by
        rw [hdiv]
        rw [show (1 : ℚ) = ((1 : ℕ) : ℚ) by norm_num, Nat.floor_sub_nat]
      simp only [accumLoop, h, if_true, hrec, hfl, Prod.mk.injEq]
      constructor
      · omega
      · rw [Nat.cast_sub hn1]
        push_cast
        ring
    · have hlt : acc < tick := lt_of_not_le h
      have hfl : ⌊acc / tick⌋₊ = 0 := by
        apply Nat.floor_eq_zero.2
        rw [div_lt_one ht]
        exact hlt
      simp [accumLoop, h, hfl]

/-- Shape payload of a collider: `BoxCollider(width, height)` or
`CircleCollider(radius)`.  The source distinguishes them by
`constructor.name`; here the kind is a tagged variant. -/
inductive ColliderKind
  | box (width height : ℚ)
  | circle (radius : ℚ)
deriving DecidableEq, Repr, Inhabited

/-- A `GameObject` as far as the physics core reads it: display `name`,
`active` flag, position, and the optional `RigidBody` component
(`getComponent(RigidBody)`). -/
structure GameObject where
  name : String
  active : Bool
  x : ℚ
  y : ℚ
  rb : Option RBState
deriving DecidableEq, Repr, Inhabited

/-- A collider component.  `id` stands for JavaScript object identity (two
registered colliders are distinct objects); `active` is the
`Component.active` flag of the collider itself — distinct from
`gameObject.active`. -/
structure Collider where
  id : ℕ
  kind : ColliderKind
  active : Bool
  isTrigger : Bool
  offsetX : ℚ
  offsetY : ℚ
  gameObject : GameObject
deriving DecidableEq, Repr, Inhabited

/-- Axis-aligned bounds as returned by `BoxCollider.getBounds()`. -/
structure Bounds where
  x : ℚ
  y : ℚ
  width : ℚ
  height : ℚ
deriving DecidableEq, Repr, Inhabited

/-- `Collider.getWorldPosition()`: entity position plus offset. -/
def Collider.getWorldPosition (c : Collider) : ℚ × ℚ :=
  (c.gameObject.x + c.offsetX, c.gameObject.y + c.offsetY)

/-- `BoxCollider.getBounds()`.  Only box colliders carry this method in the
source; the circle case (never consulted — every call site sits behind a
kind check) returns a degenerate box at the world position. -/
def Collider.getBounds (c : Collider) : Bounds :=
  match c.kind with
  | .box w h =>
      { x := c.getWorldPosition.1 - w / 2, y := c.getWorldPosition.2 - h / 2,
        width := w, height := h }
  | .circle _ =>
      { x := c.getWorldPosition.1, y := c.getWorldPosition.2,
        width := 0, height := 0 }

/-- `BoxCollider.intersects(other)`: strict AABB overlap on both axes. -/
def boxIntersects (a b : Collider) : Bool :=
  let ra := a.getBounds
  let rb := b.getBounds
  decide (ra.x < rb.x + rb.width) && decide (ra.x + ra.width > rb.x) &&
  decide (ra.y < rb.y + rb.height) && decide (ra.y + ra.height > rb.y)

/-- Radius payload of a circle collider (0 for boxes; only read behind kind
checks). -/
def Collider.radius (c : Collider) : ℚ :=
  match c.kind with
  | .circle r => r
  | .box _ _ => 0

/-- `CircleCollider.intersects(other)`: `sqrt(dx²+dy²) < r₁+r₂`.  Stated
squared to stay inside ℚ: for `dx²+dy² ≥ 0` the source condition holds iff
the sum of radii is nonnegative and `dx²+dy² < (r₁+r₂)²`. -/
def circleIntersects (a b : Collider) : Bool :=
  let p1 := a.getWorldPosition
  let p2 := b.getWorldPosition
  let dx := p2.1 - p1.1
  let dy := p2.2 - p1.2
  let rsum := a.radius + b.radius
  decide (0 ≤ rsum) && decide (dx ^ 2 + dy ^ 2 < rsum ^ 2)

/-- `CircleCollider.intersectsBox(box)`: squared distance from the circle
center to the closest clamped point of the box, compared with `radius²`. -/
def circleIntersectsBox (c box : Collider) : Bool :=
  let circle := c.getWorldPosition
  let rect := box.getBounds
  let closestX := max rect.x (min circle.1 (rect.x + rect.width))
  let closestY := max rect.y (min circle.2 (rect.y + rect.height))
  let dx := circle.1 - closestX
  let dy := circle.2 - closestY
  decide (dx * dx + dy * dy < c.radius * c.radius)

/-- The shape-kind dispatch of `detectCollisions` (the chain of
`constructor.name` comparisons, lines 53–61). -/
def isCollidingPair (a b : Collider) : Bool :=
  match a.kind, b.kind with
  | .box _ _, .box _ _ => boxIntersects a b
  | .circle _, .circle _ => circleIntersects a b
  | .circle _, .box _ _ => circleIntersectsBox a b
  | .box _ _, .circle _ => circleIntersectsBox b a

/-- Truthiness of the JS expression `rb && !rb.isKinematic` — "this side is
movable". -/
def movableRB : Option RBState → Bool
  | some r => !r.isKinematic
  | none => false

/-- Truthiness of the JS expression `rb?.isKinematic` (`undefined` is
falsy). -/
def kinematicRB : Option RBState → Bool
  | some r => r.isKinematic
  | none => false

/-- `overlapX` of `resolveCollision`:
`min(A.right - B.left, B.right - A.left)`. -/
def overlapX (a b : Collider) : ℚ :=
  min (a.getBounds.x + a.getBounds.width - b.getBounds.x)
      (b.getBounds.x + b.getBounds.width - a.getBounds.x)

/-- `overlapY` of `resolveCollision`, the vertical analogue. -/
def overlapY (a b : Collider) : ℚ :=
  min (a.getBounds.y + a.getBounds.height - b.getBounds.y)
      (b.getBounds.y + b.getBounds.height - a.getBounds.y)

/-- The horizontal branch of `resolveCollision` (`overlapX < overlapY`):
push each movable body by `direction * overlapX`, halved when the other
side is movable too, zero its horizontal velocity, set `isTouchingWall`. -/
def resolveHorizontal (a b : Collider) : Collider × Collider :=
  let direction : ℚ := if a.getBounds.x < b.getBounds.x then -1 else 1
  let a2 : Collider :=
    match a.gameObject.rb with
    | some rA =>
        if rA.isKinematic then a
        else
          { a with gameObject :=
              { a.gameObject with
                  x := a.gameObject.x +
                    direction * overlapX a b /
                      (if movableRB b.gameObject.rb then 2 else 1),
                  rb := some { rA with velocityX := 0, isTouchingWall := true } } }
    | none => a
  let b2 : Collider :=
    match b.gameObject.rb with
    | some rB =>
        if rB.isKinematic then b
        else
          { b with gameObject :=
              { b.gameObject with
                  x := b.gameObject.x -
                    direction * overlapX a b /
                      (if movableRB a.gameObject.rb then 2 else 1),
                  rb := some { rB with velocityX := 0, isTouchingWall := true } } }
    | none => b
  (a2, b2)

/-- The vertical branch of `resolveCollision` (`overlapX ≥ overlapY`): same
halving rule on `y`, zero the vertical velocity, and set `isGrounded` on the
body pushed upward (`direction < 0` for A, `direction > 0` for B). -/
def resolveVertical (a b : Collider) : Collider × Collider :=
  let direction : ℚ := if a.getBounds.y < b.getBounds.y then -1 else 1
  let a2 : Collider :=
    match a.gameObject.rb with
    | some rA =>
        if rA.isKinematic then a
        else
          let rA2 : RBState :=
            { rA with velocityY := 0,
                      isGrounded := if direction < 0 then true else rA.isGrounded }
          { a with gameObject :=
              { a.gameObject with
                  y := a.gameObject.y +
                    direction * overlapY a b /
                      (if movableRB b.gameObject.rb then 2 else 1),
                  rb := some rA2 } }
    | none => a
  let b2 : Collider :=
    match b.gameObject.rb with
    | some rB =>
        if rB.isKinematic then b
        else
          let rB2 : RBState :=
            { rB with velocityY := 0,
                      isGrounded := if direction > 0 then true else rB.isGrounded }
          { b with gameObject :=
              { b.gameObject with
                  y := b.gameObject.y -
                    direction * overlapY a b /
                      (if movableRB a.gameObject.rb then 2 else 1),
                  rb := some rB2 } }
    | none => b
  (a2, b2)

/-- A concrete unit-mass dynamic body used by the C1 witness. -/
def sampleDynamicBody : RBState :=
  { velocityX := 0, velocityY := 0, accelerationX := 0, accelerationY := 0,
    forceX := 0, forceY := 0, mass := 1, drag := 1/100, gravityScale := 1,
    useGravity := true, isKinematic := false,
    maxVelocityX := none, maxVelocityY := none,
    isGrounded := false, isTouchingWall := false }

/-- The same body marked kinematic, used by the C1 witness. -/
def sampleKinematicBody : RBState :=
  { sampleDynamicBody with isKinematic := true }

/-- `Physics.resolveCollision(a, b)`: skip when both bodies are missing or
both present bodies kinematic; box–box pairs resolve along the axis of
smaller overlap (`overlapX < overlapY` picks horizontal); all other shape
pairs are left untouched. -/
def resolveCollision (a b : Collider) : Collider × Collider :=
  if (a.gameObject.rb.isNone && b.gameObject.rb.isNone) ||
     (kinematicRB a.gameObject.rb && kinematicRB b.gameObject.rb) then
    (a, b)
  else
    match a.kind, b.kind with
    | .box _ _, .box _ _ =>
        if overlapX a b < overlapY a b then resolveHorizontal a b
        else resolveVertical a b
    | _, _ => (a, b)

/-- Box collider with bounds `{x:0, y:0, w:10, h:10}` (world position
`(5,5)` centers the 10×10 box) carrying a movable body. -/
def resA : Collider :=
  { id := 0, kind := .box 10 10, active := true, isTrigger := false,
    offsetX := 0, offsetY := 0,
    gameObject :=
      { name := "A", active := true, x := 5, y := 5,
        rb := some { sampleDynamicBody with velocityX := 30, velocityY := 4 } } }

/-- Box collider with bounds `{x:6, y:0, w:10, h:10}` carrying a movable
body. -/
def resB : Collider :=
  { id := 1, kind := .box 10 10, active := true, isTrigger := false,
    offsetX := 0, offsetY := 0,
    gameObject :=
      { name := "B", active := true, x := 11, y := 5,
        rb := some { sampleDynamicBody with velocityX := -12, velocityY := 4 } } }

/-- Box collider with bounds `{x:0, y:0, w:10, h:10}` for the tie-break
instance. -/
def tieA : Collider :=
  { id := 2, kind := .box 10 10, active := true, isTrigger := false,
    offsetX := 0, offsetY := 0,
    gameObject :=
      { name := "TA", active := true, x := 5, y := 5,
        rb := some { sampleDynamicBody with velocityX := 7, velocityY := 9 } } }

/-- Box collider with bounds `{x:6, y:6, w:10, h:10}`: overlaps `tieA` by
exactly 4 on both axes. -/
def tieB : Collider :=
  { id := 3, kind := .box 10 10, active := true, isTrigger := false,
    offsetX := 0, offsetY := 0,
    gameObject :=
      { name := "TB", active := true, x := 11, y := 11,
        rb := some { sampleDynamicBody with velocityX := 7, velocityY := 9 } } }

/-- `resA` with its body made kinematic. -/
def kinA : Collider :=
  { resA with gameObject := { resA.gameObject with rb := some sampleKinematicBody } }

/-- `resB` with its body made kinematic. -/
def kinB : Collider :=
  { resB with gameObject := { resB.gameObject with rb := some sampleKinematicBody } }

/-- JavaScript number values the raycaster can produce: finite rationals,
the two infinities (division by a zero direction component) and NaN
(`0 / 0`). -/
inductive JSNum
  | nan
  | ninf
  | pinf
  | num (q : ℚ)
deriving DecidableEq, Repr, Inhabited

namespace JSNum

/-- JavaScript division of two finite numbers (the slab computation only
divides finite values): a zero divisor gives `±Infinity` by the sign of the
dividend, and `0 / 0` gives `NaN`. -/
def jdiv (a d : ℚ) : JSNum :=
  if d = 0 then
    if a = 0 then nan
    else if 0 < a then pinf
    else ninf
  else num (a / d)

/-- JavaScript `<` — false whenever an operand is NaN. -/
def jlt : JSNum → JSNum → Bool
  | nan, _ => false
  | _, nan => false
  | ninf, ninf => false
  | ninf, pinf => true
  | ninf, num _ => true
  | pinf, _ => false
  | num _, ninf => false
  | num _, pinf => true
  | num a, num b => decide (a < b)

/-- JavaScript `<=` — false whenever an operand is NaN. -/
def jle : JSNum → JSNum → Bool
  | nan, _ => false
  | _, nan => false
  | ninf, _ => true
  | pinf, pinf => true
  | pinf, _ => false
  | num _, ninf => false
  | num _, pinf => true
  | num a, num b => decide (a ≤ b)

/-- `Math.min` — NaN-propagating minimum. -/
def jmin : JSNum → JSNum → JSNum
  | nan, _ => nan
  | _, nan => nan
  | ninf, _ => ninf
  | _, ninf => ninf
  | pinf, b => b
  | a, pinf => a
  | num a, num b => num (min a b)

/-- `Math.max` — NaN-propagating maximum. -/
def jmax : JSNum → JSNum → JSNum
  | nan, _ => nan
  | _, nan => nan
  | pinf, _ => pinf
  | _, pinf => pinf
  | ninf, b => b
  | a, ninf => a
  | num a, num b => num (max a b)

/-- JavaScript addition (needed for the hit point). -/
def jadd : JSNum → JSNum → JSNum
  | nan, _ => nan
  | _, nan => nan
  | pinf, ninf => nan
  | ninf, pinf => nan
  | pinf, _ => pinf
  | _, pinf => pinf
  | ninf, _ => ninf
  | _, ninf => ninf
  | num a, num b => num (a + b)

/-- JavaScript multiplication (needed for the hit point); `0 * ±Infinity`
is NaN. -/
def jmul : JSNum → JSNum → JSNum
  | nan, _ => nan
  | _, nan => nan
  | pinf, pinf => pinf
  | pinf, ninf => ninf
  | ninf, pinf => ninf
  | ninf, ninf => pinf
  | pinf, num b => if b = 0 then nan else if 0 < b then pinf else ninf
  | num a, pinf => if a = 0 then nan else if 0 < a then pinf else ninf
  | ninf, num b => if b = 0 then nan else if 0 < b then ninf else pinf
  | num a, ninf => if a = 0 then nan else if 0 < a then ninf else pinf
  | num a, num b => num (a * b)

end JSNum

/-- The slab parameters `(tNear, tFar)` computed by `raycastBox`:
per-axis crossing parameters `t = (boundary - origin) / direction` with
JavaScript division, per-axis `[min, max]`, then
`tNear = max(t1, t3)`, `tFar = min(t2, t4)`. -/
def slabParams (x y dirX dirY : ℚ) (box : Bounds) : JSNum × JSNum :=
  let tMin := JSNum.jdiv (box.x - x) dirX
  let tMax := JSNum.jdiv (box.x + box.width - x) dirX
  let tYMin := JSNum.jdiv (box.y - y) dirY
  let tYMax := JSNum.jdiv (box.y + box.height - y) dirY
  let t1 := JSNum.jmin tMin tMax
  let t2 := JSNum.jmax tMin tMax
  let t3 := JSNum.jmin tYMin tYMax
  let t4 := JSNum.jmax tYMin tYMax
  (JSNum.jmax t1 t3, JSNum.jmin t2 t4)

/-- Result of `raycastBox`: distance along the ray and hit point. -/
structure RayHit where
  distance : JSNum
  pointX : JSNum
  pointY : JSNum
deriving DecidableEq, Repr

/-- `Physics.raycastBox(x, y, dirX, dirY, maxDistance, box)`: return null
when `tNear > tFar || tFar < 0 || tNear > maxDistance` (JavaScript
comparisons), otherwise the hit at `tNear` with point
`origin + direction * tNear`. -/
def raycastBox (x y dirX dirY maxDistance : ℚ) (box : Bounds) :
    Option RayHit :=
  let t := slabParams x y dirX dirY box
  if JSNum.jlt t.2 t.1 || JSNum.jlt t.2 (JSNum.num 0) ||
      JSNum.jlt (JSNum.num maxDistance) t.1 then
    none
  else
    some { distance := t.1,
           pointX := JSNum.jadd (JSNum.num x) (JSNum.jmul (JSNum.num dirX) t.1),
           pointY := JSNum.jadd (JSNum.num y) (JSNum.jmul (JSNum.num dirY) t.1) }

/-- Amended per-box hit condition: `tEntry ≤ tExit`, `tExit ≥ 0` and
`tEntry < maxDistance` — the strict last comparison reflects the outer
`hit.distance < closestDistance` filter of `raycast`. -/
def slabHit (x y dirX dirY maxDistance : ℚ) (box : Bounds) : Bool :=
  let t := slabParams x y dirX dirY box
  JSNum.jle t.1 t.2 && JSNum.jle (JSNum.num 0) t.2 &&
    JSNum.jlt t.1 (JSNum.num maxDistance)

/-- The per-box hit condition exactly as the claim words it:
`tEntry ≤ tExit`, `tExit ≥ 0`, and `tEntry ≤ maxDistance` (non-strict).
Kept for comparison with the behaviour of the source. -/
def slabHitClaim (x y dirX dirY maxDistance : ℚ) (box : Bounds) : Bool :=
  let t := slabParams x y dirX dirY box
  JSNum.jle t.1 t.2 && JSNum.jle (JSNum.num 0) t.2 &&
    JSNum.jle t.1 (JSNum.num maxDistance)

/-- Kind test used by `raycast` (`constructor.name === 'BoxCollider'`). -/
def isBoxKind : ColliderKind → Bool
  | .box _ _ => true
  | .circle _ => false

/-- A collider qualifies for a ray hit: active, box-shaped, and its slab
test passes with `tEntry < maxDistance`. -/
def rayQualifies (x y dirX dirY distance : ℚ) (c : Collider) : Bool :=
  c.active && isBoxKind c.kind && slabHit x y dirX dirY distance c.getBounds

/-- `tNear` of a collider, for stating which hit is nearest. -/
def tNearOf (x y dirX dirY : ℚ) (c : Collider) : JSNum :=
  (slabParams x y dirX dirY c.getBounds).1

/-- One iteration of the `raycast` loop: skip inactive and non-box
colliders, otherwise keep the hit when `hit.distance < closestDistance`. -/
def raycastStep (x y dirX dirY distance : ℚ)
    (st : JSNum × Option (RayHit × Collider)) (c : Collider) :
    JSNum × Option (RayHit × Collider) :=
  if c.active then
    match c.kind with
    | .box _ _ =>
        match raycastBox x y dirX dirY distance c.getBounds with
        | some hit =>
            if JSNum.jlt hit.distance st.1 then (hit.distance, some (hit, c))
            else st
        | none => st
    | .circle _ => st
  else st

/-- `Physics.raycast(x, y, dirX, dirY, distance)`: fold over the registered
colliders with `closestDistance` initialized to `distance` and
`closestHit` to null. -/
def raycast (colliders : List Collider) (x y dirX dirY distance : ℚ) :
    Option (RayHit × Collider) :=
  (colliders.foldl (raycastStep x y dirX dirY distance)
    (JSNum.num distance, none)).2

/-- Box collider with bounds `{x:50, y:-5, w:10, h:10}` (world position
`(55, 0)`), no body attached. -/
def hitBox : Collider :=
  { id := 10, kind := .box 10 10, active := true, isTrigger := false,
    offsetX := 0, offsetY := 0,
    gameObject := { name := "H", active := true, x := 55, y := 0, rb := none } }

/-- Box collider with bounds `{x:-50, y:-5, w:10, h:10}` — entirely behind
a ray cast from the origin along `+x`. -/
def behindBox : Collider :=
  { id := 11, kind := .box 10 10, active := true, isTrigger := false,
    offsetX := 0, offsetY := 0,
    gameObject := { name := "BH", active := true, x := -45, y := 0, rb := none } }

/-- Invariant of the `raycast` fold: the running best distance is non-NaN
and at most `distance`; a null best hit means no collider seen so far
qualifies; a non-null best hit is a qualifying seen collider whose
`raycastBox` produced it; and the best distance is `≤` (JavaScript order)
the `tNear` of every qualifying collider seen so far. -/
def RayInv (x y dirX dirY distance : ℚ) (seen : List Collider)
    (st : JSNum × Option (RayHit × Collider)) : Prop :=
  st.1 ≠ JSNum.nan ∧
  JSNum.jle st.1 (JSNum.num distance) = true ∧
  (st.2 = none → st.1 = JSNum.num distance ∧
    ∀ c ∈ seen, rayQualifies x y dirX dirY distance c = false) ∧
  (∀ h c, st.2 = some (h, c) → c ∈ seen ∧
    rayQualifies x y dirX dirY distance c = true ∧
    raycastBox x y dirX dirY distance c.getBounds = some h ∧
    st.1 = h.distance) ∧
  (∀ c ∈ seen, rayQualifies x y dirX dirY distance c = true →
    JSNum.jle st.1 (tNearOf x y dirX dirY c) = true)

/-- One side of the contact-pair key: the template-literal part
`a.gameObject.name || i` — the display name when truthy (non-empty),
otherwise the loop index. -/
def nameOrIdx (cs : List Collider) (i : ℕ) : String :=
  let c := cs.getD i default
  if c.gameObject.name = "" then toString i else c.gameObject.name

/-- The contact-pair key of `detectCollisions`:
the template literal with a dash between the two sides. -/
def pairKey (cs : List Collider) (i j : ℕ) : String :=
  nameOrIdx cs i ++ "-" ++ nameOrIdx cs j

/-- One collision callback delivery `target.onCollisionXxx(other)`,
identified by the JavaScript object identities of the two colliders. -/
inductive PhysEvent
  | enterEv (target other : ℕ)
  | stayEv (target other : ℕ)
  | exitEv (target other : ℕ)
deriving DecidableEq, Repr

/-- `Map.set` on the contact table: replace the first binding of the key,
else append (a JavaScript `Map` keeps the original insertion position on
overwrite). -/
def mapSet (m : List (String × ℕ × ℕ)) (k : String) (v : ℕ × ℕ) :
    List (String × ℕ × ℕ) :=
  match m with
  | [] => [(k, v)]
  | (k2, v2) :: rest =>
      if k2 = k then (k, v) :: rest else (k2, v2) :: mapSet rest k v

/-- `Map.has` on the contact table. -/
def mapHas (m : List (String × ℕ × ℕ)) (k : String) : Bool :=
  m.any (fun e => e.1 = k)

/-- Running state of the `detectCollisions` double loop: the collider
array (mutated in place by resolution), the new contact table, and the
callback deliveries so far, in order. -/
structure DetectState where
  colliders : List Collider
  newCollisions : List (String × ℕ × ℕ)
  events : List PhysEvent
deriving Repr

/-- The body of the `detectCollisions` double loop at index pair `(i, j)`:
skip when either component is inactive, run the kind-dispatched
intersection test, record the pair under its key, fire stay (key present
in the previous table) or enter callbacks on both sides, and resolve
non-trigger pairs, writing the two updated colliders back in place. -/
def processPair (matrix : List (String × ℕ × ℕ)) (st : DetectState)
    (ij : ℕ × ℕ) : DetectState :=
  let a := st.colliders.getD ij.1 default
  let b := st.colliders.getD ij.2 default
  if !a.active || !b.active then st
  else
    let isColliding := isCollidingPair a b
    let key := pairKey st.colliders ij.1 ij.2
    if isColliding then
      let st1 : DetectState :=
        { st with
            newCollisions := mapSet st.newCollisions key (a.id, b.id),
            events := st.events ++
              (if mapHas matrix key then
                [PhysEvent.stayEv a.id b.id, PhysEvent.stayEv b.id a.id]
              else
                [PhysEvent.enterEv a.id b.id, PhysEvent.enterEv b.id a.id]) }
      if !a.isTrigger && !b.isTrigger then
        let r := resolveCollision a b
        { st1 with colliders := (st1.colliders.set ij.1 r.1).set ij.2 r.2 }
      else st1
    else st

/-- Index pairs `(i, j)` with `i < j < n`, in the loop order of the double
`for` loop. -/
def pairsUpTo (n : ℕ) : List (ℕ × ℕ) :=
  (List.range n).flatMap
    (fun i => (List.range' (i + 1) (n - (i + 1))).map (fun j => (i, j)))

/-- The mutable state of a `Physics` instance as far as collision
detection reads and writes it: the registered collider list and the
previous-tick contact table. -/
structure PhysicsState where
  colliders : List Collider
  collisionMatrix : List (String × ℕ × ℕ)
deriving Repr

/-- `Physics.addCollider`. -/
def addCollider (p : PhysicsState) (c : Collider) : PhysicsState :=
  { p with colliders := p.colliders ++ [c] }

/-- `Physics.removeCollider`: `indexOf` plus `splice(index, 1)` — remove
the first occurrence of the object (identified here by `id`); the contact
table is not touched. -/
def removeCollider (p : PhysicsState) (cid : ℕ) : PhysicsState :=
  { p with colliders := p.colliders.eraseP (fun c => c.id == cid) }

/-- `Physics.detectCollisions()`: the double loop over all index pairs,
then exit callbacks for every stored pair whose key is missing from the
new table, then the table swap.  Returns the new physics state and the
callback deliveries in order. -/
def detectCollisions (p : PhysicsState) : PhysicsState × List PhysEvent :=
  let st := (pairsUpTo p.colliders.length).foldl (processPair p.collisionMatrix)
    { colliders := p.colliders, newCollisions := [], events := [] }
  let exits := p.collisionMatrix.foldl
    (fun evs e =>
      if mapHas st.newCollisions e.1 then evs
      else evs ++ [PhysEvent.exitEv e.2.1 e.2.2, PhysEvent.exitEv e.2.2 e.2.1])
    []
  (⟨st.colliders, st.newCollisions⟩, st.events ++ exits)

/-- The loop state just before the pair `(i, j)` is processed. -/
def detectUpTo (matrix : List (String × ℕ × ℕ)) (cs : List Collider)
    (i j : ℕ) : DetectState :=
  ((pairsUpTo cs.length).takeWhile (fun q => q ≠ (i, j))).foldl
    (processPair matrix)
    { colliders := cs, newCollisions := [], events := [] }

/-- Whether the detection pass actually finds the pair `(i, j)` colliding
at the moment it tests it (both components active and the kind-dispatched
test true, on the mid-pass collider states). -/
def pairTested (matrix : List (String × ℕ × ℕ)) (cs : List Collider)
    (i j : ℕ) : Bool :=
  let st := detectUpTo matrix cs i j
  let a := st.colliders.getD i default
  let b := st.colliders.getD j default
  a.active && b.active && isCollidingPair a b

/-- The fields of a collider that the detection pass never writes:
identity and the display name the pair keys are derived from (resolution
only moves positions, velocities and contact flags). -/
def shallowEq (c1 c2 : Collider) : Prop :=
  c1.id = c2.id ∧ c1.active = c2.active ∧ c1.isTrigger = c2.isTrigger ∧
  c1.kind = c2.kind ∧ c1.gameObject.name = c2.gameObject.name

/-- A bodiless box collider with the given identity, display name and
position, used to build concrete detection scenarios. -/
def namedBox (cid : ℕ) (nm : String) (px py : ℚ) : Collider :=
  { id := cid, kind := .box 10 10, active := true, isTrigger := false,
    offsetX := 0, offsetY := 0,
    gameObject := { name := nm, active := true, x := px, y := py, rb := none } }

/-- Four registered colliders where two distinct game objects are both
named "A" and two are both named "B". -/
def dupList : List Collider :=
  [namedBox 30 "A" 0 0, namedBox 31 "B" 100 0,
   namedBox 32 "A" 200 0, namedBox 33 "B" 300 0]

/-- Overlapping collider pair whose owning game objects are inactive while
the collider components themselves stay active; both carry movable
bodies. -/
def ghostA : Collider :=
  { id := 40, kind := .box 10 10, active := true, isTrigger := false,
    offsetX := 0, offsetY := 0,
    gameObject :=
      { name := "GA", active := false, x := 0, y := 0,
        rb := some sampleDynamicBody } }

/-- Second collider of the inactive-owner pair, overlapping `ghostA`. -/
def ghostB : Collider :=
  { id := 41, kind := .box 10 10, active := true, isTrigger := false,
    offsetX := 0, offsetY := 0,
    gameObject :=
      { name := "GB", active := false, x := 5, y := 0,
        rb := some sampleDynamicBody } }

/-- Overlapping bodiless pair "a"/"b" for the removal scenario. -/
def rmA : Collider := namedBox 20 "a" 0 0

/-- Partner of `rmA`, removed between the two ticks of the scenario. -/
def rmB : Collider := namedBox 21 "b" 5 0

/-- The retained contact table after `t` detection ticks: tick `t` runs on
the collider states `css t` (positions are rewritten between ticks by
integration and game logic, so the per-tick collider arrays are an input)
and on the table kept from the previous tick, starting from the empty
table of a fresh `Physics` instance. -/
def matrixAt (css : ℕ → List Collider) : ℕ → List (String × ℕ × ℕ)
  | 0 => []
  | t + 1 => (detectCollisions ⟨css t, matrixAt css t⟩).1.collisionMatrix

/-- The callback deliveries of detection tick `t`. -/
def eventsAt (css : ℕ → List Collider) (t : ℕ) : List PhysEvent :=
  (detectCollisions ⟨css t, matrixAt css t⟩).2

/-- Moving collider of the lifecycle scenario: overlaps its partner on
ticks 1 and 2, separated on every other tick. -/
def lifeA (t : ℕ) : Collider :=
  namedBox 50 "LA" (if t = 1 ∨ t = 2 then 0 else 100) 0

/-- The per-tick collider arrays of the lifecycle scenario. -/
def cssLife (t : ℕ) : List Collider := [lifeA t, namedBox 51 "LB" 5 0]

/-- A collider whose own `Component.active` flag is false while its owning
game object stays active. -/
def offA : Collider :=
  { id := 60, kind := .box 10 10, active := false, isTrigger := false,
    offsetX := 0, offsetY := 0,
    gameObject :=
      { name := "OA", active := true, x := 0, y := 0, rb := none } }

/-- Active partner overlapping `offA`. -/
def offB : Collider := namedBox 61 "OB" 5 0

end BounceEngine

namespace BounceEngine

/-- C1: for a non-kinematic body in a scene with a physics system, one
`fixedUpdate(dt)` performs exactly the spec seven steps in order (gravity
if `useGravity`, `pendingForce / mass`, `velocity += acceleration * dt`,
`velocity *= (1 - drag)`, per-component clamp, `position += velocity * dt`,
reset), so afterwards the pending force and the acceleration are `(0, 0)`;
a kinematic body is left entirely unchanged. -/
theorem fixedUpdate_follows_spec (gravity dt : ℚ) (rb : RBState)
    (goX goY : ℚ) :
    (rb.isKinematic = false →
      rb.fixedUpdate (some gravity) dt goX goY =
        specIntegrationStep gravity dt rb goX goY ∧
      (rb.fixedUpdate (some gravity) dt goX goY).1.forceX = 0 ∧
      (rb.fixedUpdate (some gravity) dt goX goY).1.forceY = 0 ∧
      (rb.fixedUpdate (some gravity) dt goX goY).1.accelerationX = 0 ∧
      (rb.fixedUpdate (some gravity) dt goX goY).1.accelerationY = 0) ∧
    (∀ g? : Option ℚ, rb.isKinematic = true →
      rb.fixedUpdate g? dt goX goY = (rb, goX, goY)) := by
  constructor
  · intro hk
    refine ⟨?_, ?_, ?_, ?_, ?_⟩ <;>
      simp [RBState.fixedUpdate, specIntegrationStep, hk]
  · intro g? hk
    simp [RBState.fixedUpdate, hk]

/-- Witness for C1 at a concrete body: a unit-mass non-kinematic body and a
kinematic one, with the kinematicity hypotheses discharged by computation. -/
theorem fixedUpdate_follows_spec_witness :
    (sampleDynamicBody.fixedUpdate (some 980) (1/60) 0 0 =
        specIntegrationStep 980 (1/60) sampleDynamicBody 0 0 ∧
      (sampleDynamicBody.fixedUpdate (some 980) (1/60) 0 0).1.forceX = 0 ∧
      (sampleDynamicBody.fixedUpdate (some 980) (1/60) 0 0).1.forceY = 0 ∧
      (sampleDynamicBody.fixedUpdate (some 980) (1/60) 0 0).1.accelerationX = 0 ∧
      (sampleDynamicBody.fixedUpdate (some 980) (1/60) 0 0).1.accelerationY = 0) ∧
    sampleKinematicBody.fixedUpdate none (1/60) 0 0 = (sampleKinematicBody, 0, 0) :=
  ⟨(fixedUpdate_follows_spec 980 (1/60) sampleDynamicBody 0 0).1 rfl,
   (fixedUpdate_follows_spec 980 (1/60) sampleKinematicBody 0 0).2 none rfl⟩

/-- C2: each frame the scheduler clamps the elapsed wall time to at most
0.1 s, adds it to the persistent accumulator and runs one tick with
`dt = fixedTick` per multiple of `fixedTick` contained in the accumulator,
carrying the exact sub-tick remainder (which stays in `[0, fixedTick)`);
three successive 0.02 s frames at `fixedTick = 1/60` yield one tick each
(3 in total) and final remainder exactly `0.06 - 3 * (1/60) = 0.01`. -/
theorem scheduler_fixed_timestep (fuel : ℕ) (acc tick : ℚ)
    (htick : 0 < tick) (hacc : 0 ≤ acc) (hfuel : acc < (fuel : ℚ) * tick) :
    accumLoop fuel acc tick =
      (⌊acc / tick⌋₊, acc - (⌊acc / tick⌋₊ : ℚ) * tick) ∧
    0 ≤ acc - (⌊acc / tick⌋₊ : ℚ) * tick ∧
    acc - (⌊acc / tick⌋₊ : ℚ) * tick < tick ∧
    (∀ cur last : ℚ, min ((cur - last) / 1000) (1/10) ≤ (1/10 : ℚ)) ∧
    gameFrame 10 0 20 0 (1/60) = (1, 1/300) ∧
    gameFrame 10 (1/300) 40 20 (1/60) = (1, 1/150) ∧
    gameFrame 10 (1/150) 60 40 (1/60) = (1, 1/100) := by
  refine ⟨accumLoop_eq fuel acc tick htick hacc hfuel, ?_, ?_, ?_, ?_, ?_, ?_⟩
  · have hfl := Nat.floor_le (a := acc / tick) (div_nonneg hacc htick.le)
    have := (mul_le_mul_right htick).2 hfl
    rw [div_mul_cancel₀ acc htick.ne'] at this
    linarith
  · have hfl := Nat.lt_floor_add_one (acc / tick)
    have := (mul_lt_mul_right htick).2 hfl
    rw [div_mul_cancel₀ acc htick.ne'] at this
    linarith
  · intro cur last
    exact min_le_right _ _
  · norm_num [gameFrame, accumLoop]
  · norm_num [gameFrame, accumLoop]
  · norm_num [gameFrame, accumLoop]

/-- Witness for C2 at `acc = 0.06 = 3/50`, `tick = 1/60`, `fuel = 10`. -/
theorem scheduler_fixed_timestep_witness :
    (0 : ℚ) < 1/60 ∧ (0 : ℚ) ≤ 3/50 ∧ (3/50 : ℚ) < (10 : ℕ) * (1/60) ∧
    accumLoop 10 (3/50) (1/60) =
      (⌊(3/50 : ℚ) / (1/60)⌋₊, 3/50 - (⌊(3/50 : ℚ) / (1/60)⌋₊ : ℚ) * (1/60)) :=
  ⟨by norm_num, by norm_num, by norm_num,
   (scheduler_fixed_timestep 10 (3/50) (1/60) (by norm_num) (by norm_num)
      (by norm_num)).1⟩

/-- C4: the boxes with bounds `A{x:0,y:0,w:10,h:10}` and
`B{x:6,y:0,w:10,h:10}` (overlaps 4 and 10), both movable, resolve along the
horizontal axis with the correction split (A moves −2, B moves +2);
afterwards the left edge of A is ≤ 0, the left edge of B is ≥ 6, the gap is
≥ 0, and both horizontal velocities are 0. -/
theorem resolver_splits_horizontal_overlap :
    overlapX resA resB = 4 ∧ overlapY resA resB = 10 ∧
    resolveCollision resA resB = resolveHorizontal resA resB ∧
    (resolveCollision resA resB).1.getBounds.x ≤ 0 ∧
    (resolveCollision resA resB).2.getBounds.x ≥ 6 ∧
    (resolveCollision resA resB).2.getBounds.x -
      ((resolveCollision resA resB).1.getBounds.x +
        (resolveCollision resA resB).1.getBounds.width) ≥ 0 ∧
    (resolveCollision resA resB).1.gameObject.x = 3 ∧
    (resolveCollision resA resB).2.gameObject.x = 13 ∧
    Option.map RBState.velocityX (resolveCollision resA resB).1.gameObject.rb
      = some 0 ∧
    Option.map RBState.velocityX (resolveCollision resA resB).2.gameObject.rb
      = some 0 := by
  norm_num [resolveCollision, resolveHorizontal, overlapX, overlapY,
    resA, resB, Collider.getBounds, Collider.getWorldPosition,
    movableRB, kinematicRB, sampleDynamicBody]

/-- C5 counterexample: bounds `A{0,0,10,10}` and `B{6,6,10,10}` overlap by
exactly 4 on both axes, both bodies movable, yet resolution takes the
**vertical** branch — horizontal positions and velocities are untouched
while vertical ones change — refuting the claim that ties resolve along the
horizontal (X) branch. -/
theorem resolver_tie_horizontal_counterexample :
    overlapX tieA tieB = overlapY tieA tieB ∧
    movableRB tieA.gameObject.rb = true ∧
    movableRB tieB.gameObject.rb = true ∧
    resolveCollision tieA tieB = resolveVertical tieA tieB ∧
    (resolveCollision tieA tieB).1.gameObject.x = tieA.gameObject.x ∧
    (resolveCollision tieA tieB).2.gameObject.x = tieB.gameObject.x ∧
    Option.map RBState.velocityX (resolveCollision tieA tieB).1.gameObject.rb
      = some 7 ∧
    Option.map RBState.velocityX (resolveCollision tieA tieB).2.gameObject.rb
      = some 7 ∧
    (resolveCollision tieA tieB).1.gameObject.y = 3 ∧
    (resolveCollision tieA tieB).2.gameObject.y = 13 ∧
    Option.map RBState.velocityY (resolveCollision tieA tieB).1.gameObject.rb
      = some 0 ∧
    (resolveCollision tieA tieB).1.gameObject.y ≠ tieA.gameObject.y := by
  norm_num [resolveCollision, resolveVertical, overlapX, overlapY,
    tieA, tieB, Collider.getBounds, Collider.getWorldPosition,
    movableRB, kinematicRB, sampleDynamicBody]

/-- C5 (amended): for every box–box pair with at least one movable body and
`overlapX` exactly equal to `overlapY`, the `<` comparison fails and
resolution proceeds along the **vertical** (Y) branch, not the horizontal
one. -/
theorem resolver_tie_goes_vertical (a b : Collider)
    (wa hgta wb hgtb : ℚ) (hak : a.kind = .box wa hgta)
    (hbk : b.kind = .box wb hgtb)
    (hmov : movableRB a.gameObject.rb = true ∨ movableRB b.gameObject.rb = true)
    (htie : overlapX a b = overlapY a b) :
    resolveCollision a b = resolveVertical a b := by
  have hguard : ((a.gameObject.rb.isNone && b.gameObject.rb.isNone) ||
      (kinematicRB a.gameObject.rb && kinematicRB b.gameObject.rb)) = false := by
    rcases hmov with h | h
    · cases hrb : a.gameObject.rb with
      | none => rw [hrb] at h; simp [movableRB] at h
      | some r =>
        rw [hrb] at h
        have hk : r.isKinematic = false := by simpa [movableRB] using h
        simp [hrb, kinematicRB, hk]
    · cases hrb : b.gameObject.rb with
      | none => rw [hrb] at h; simp [movableRB] at h
      | some r =>
        rw [hrb] at h
        have hk : r.isKinematic = false := by simpa [movableRB] using h
        simp [hrb, kinematicRB, hk]
  rw [resolveCollision, hguard]
  simp only [Bool.false_eq_true, if_false]
  rw [hak, hbk]
  simp only [htie, lt_irrefl, if_false]

/-- Witness for C5 (amended) at the tie instance `tieA`/`tieB`. -/
theorem resolver_tie_goes_vertical_witness :
    tieA.kind = ColliderKind.box 10 10 ∧ tieB.kind = ColliderKind.box 10 10 ∧
    movableRB tieA.gameObject.rb = true ∧
    overlapX tieA tieB = overlapY tieA tieB ∧
    resolveCollision tieA tieB = resolveVertical tieA tieB :=
  ⟨rfl, rfl, rfl,
   by norm_num [overlapX, overlapY, tieA, tieB, Collider.getBounds,
        Collider.getWorldPosition],
   resolver_tie_goes_vertical tieA tieB 10 10 10 10 rfl rfl (Or.inl rfl)
     (by norm_num [overlapX, overlapY, tieA, tieB, Collider.getBounds,
        Collider.getWorldPosition])⟩

/-- The horizontal branch never touches a non-movable left-hand side. -/
theorem resolveHorizontal_fst_unmoved (a b : Collider)
    (h : movableRB a.gameObject.rb = false) : (resolveHorizontal a b).1 = a := by
  unfold resolveHorizontal
  cases hrb : a.gameObject.rb with
  | none => simp [hrb]
  | some r =>
    rw [hrb] at h
    have hk : r.isKinematic = true := by simpa [movableRB] using h
    simp [hrb, hk]

/-- The horizontal branch never touches a non-movable right-hand side. -/
theorem resolveHorizontal_snd_unmoved (a b : Collider)
    (h : movableRB b.gameObject.rb = false) : (resolveHorizontal a b).2 = b := by
  unfold resolveHorizontal
  cases hrb : b.gameObject.rb with
  | none => simp [hrb]
  | some r =>
    rw [hrb] at h
    have hk : r.isKinematic = true := by simpa [movableRB] using h
    simp [hrb, hk]

/-- The vertical branch never touches a non-movable left-hand side. -/
theorem resolveVertical_fst_unmoved (a b : Collider)
    (h : movableRB a.gameObject.rb = false) : (resolveVertical a b).1 = a := by
  unfold resolveVertical
  cases hrb : a.gameObject.rb with
  | none => simp [hrb]
  | some r =>
    rw [hrb] at h
    have hk : r.isKinematic = true := by simpa [movableRB] using h
    simp [hrb, hk]

/-- The vertical branch never touches a non-movable right-hand side. -/
theorem resolveVertical_snd_unmoved (a b : Collider)
    (h : movableRB b.gameObject.rb = false) : (resolveVertical a b).2 = b := by
  unfold resolveVertical
  cases hrb : b.gameObject.rb with
  | none => simp [hrb]
  | some r =>
    rw [hrb] at h
    have hk : r.isKinematic = true := by simpa [movableRB] using h
    simp [hrb, hk]

/-- C6: a side whose body is kinematic or absent (`movableRB … = false`) is
returned by the Resolver completely unchanged — velocity, contact flags and
owning entity position included — and when both bodies are absent, or both
present and kinematic, resolution changes no state at all. -/
theorem resolver_never_moves_kinematic (a b : Collider) :
    (movableRB a.gameObject.rb = false → (resolveCollision a b).1 = a) ∧
    (movableRB b.gameObject.rb = false → (resolveCollision a b).2 = b) ∧
    ((a.gameObject.rb = none ∧ b.gameObject.rb = none) ∨
      (kinematicRB a.gameObject.rb = true ∧ kinematicRB b.gameObject.rb = true) →
      resolveCollision a b = (a, b)) := by
  refine ⟨?_, ?_, ?_⟩
  · intro h
    by_cases hg : ((a.gameObject.rb.isNone && b.gameObject.rb.isNone) ||
        (kinematicRB a.gameObject.rb && kinematicRB b.gameObject.rb)) = true
    · simp [resolveCollision, hg]
    · rw [Bool.not_eq_true] at hg
      rw [resolveCollision, hg]
      simp only [Bool.false_eq_true, if_false]
      cases hak : a.kind with
      | circle r => cases hbk : b.kind <;> simp
      | box w hgt =>
        cases hbk : b.kind with
        | circle r => simp
        | box w2 hgt2 =>
          by_cases hov : overlapX a b < overlapY a b
          · simp [hov, resolveHorizontal_fst_unmoved a b h]
          · simp [hov, resolveVertical_fst_unmoved a b h]
  · intro h
    by_cases hg : ((a.gameObject.rb.isNone && b.gameObject.rb.isNone) ||
        (kinematicRB a.gameObject.rb && kinematicRB b.gameObject.rb)) = true
    · simp [resolveCollision, hg]
    · rw [Bool.not_eq_true] at hg
      rw [resolveCollision, hg]
      simp only [Bool.false_eq_true, if_false]
      cases hak : a.kind with
      | circle r => cases hbk : b.kind <;> simp
      | box w hgt =>
        cases hbk : b.kind with
        | circle r => simp
        | box w2 hgt2 =>
          by_cases hov : overlapX a b < overlapY a b
          · simp [hov, resolveHorizontal_snd_unmoved a b h]
          · simp [hov, resolveVertical_snd_unmoved a b h]
  · intro h
    rcases h with ⟨ha, hb⟩ | ⟨ha, hb⟩
    · simp [resolveCollision, ha, hb]
    · simp [resolveCollision, ha, hb]

namespace JSNum

/-- A true JavaScript `<` has no NaN operand. -/
theorem jlt_ne_nan {a b : JSNum} (h : jlt a b = true) : a ≠ nan ∧ b ≠ nan := by
  cases a <;> cases b <;> simp_all [jlt]

/-- JavaScript `<` is asymmetric. -/
theorem jlt_asymm {a b : JSNum} (h : jlt a b = true) : jlt b a = false := by
  cases a <;> cases b <;> simp_all [jlt] <;> linarith

/-- JavaScript `<` implies `<=`. -/
theorem jle_of_jlt {a b : JSNum} (h : jlt a b = true) : jle a b = true := by
  cases a <;> cases b <;> simp_all [jlt, jle] <;> linarith

/-- JavaScript `<=` is reflexive away from NaN. -/
theorem jle_refl_of_ne_nan {a : JSNum} (h : a ≠ nan) : jle a a = true := by
  cases a <;> simp_all [jle]

/-- `a <= b` forbids `b < a`. -/
theorem not_jlt_of_jle {a b : JSNum} (h : jle a b = true) : jlt b a = false := by
  cases a <;> cases b <;> simp_all [jlt, jle] <;> linarith

/-- Away from NaN the order is total: `¬(a < b)` gives `b <= a`. -/
theorem jle_of_not_jlt {a b : JSNum} (ha : a ≠ nan) (hb : b ≠ nan)
    (h : jlt a b = false) : jle b a = true := by
  cases a <;> cases b <;> simp_all [jlt, jle] <;> linarith

/-- `<` chains with `<=` on the right. -/
theorem jlt_of_jlt_of_jle {a b c : JSNum} (h1 : jlt a b = true)
    (h2 : jle b c = true) : jlt a c = true := by
  cases a <;> cases b <;> cases c <;> simp_all [jlt, jle] <;> linarith

/-- If the `min`/`max` slab combination on the far side is NaN, so is the
near side. -/
theorem jminmax_nan {a b c d : JSNum}
    (h : jmin (jmax a b) (jmax c d) = nan) :
    jmax (jmin a b) (jmin c d) = nan := by
  cases a <;> cases b <;> cases c <;> cases d <;> simp_all [jmin, jmax]

end JSNum

/-- A NaN `tFar` forces a NaN `tNear`. -/
theorem slabParams_fst_nan (x y dirX dirY : ℚ) (box : Bounds)
    (h : (slabParams x y dirX dirY box).2 = JSNum.nan) :
    (slabParams x y dirX dirY box).1 = JSNum.nan := by
  unfold slabParams at h ⊢
  exact JSNum.jminmax_nan h

/-- Characterization of a non-null `raycastBox` result: the hit carries
`tNear` and `origin + direction * tNear`, and all three null-checks were
false. -/
theorem raycastBox_eq_some (x y dirX dirY maxD : ℚ) (box : Bounds)
    (h : RayHit) (he : raycastBox x y dirX dirY maxD box = some h) :
    h.distance = (slabParams x y dirX dirY box).1 ∧
    h.pointX = JSNum.jadd (JSNum.num x)
      (JSNum.jmul (JSNum.num dirX) (slabParams x y dirX dirY box).1) ∧
    h.pointY = JSNum.jadd (JSNum.num y)
      (JSNum.jmul (JSNum.num dirY) (slabParams x y dirX dirY box).1) ∧
    JSNum.jlt (slabParams x y dirX dirY box).2
      (slabParams x y dirX dirY box).1 = false ∧
    JSNum.jlt (slabParams x y dirX dirY box).2 (JSNum.num 0) = false ∧
    JSNum.jlt (JSNum.num maxD) (slabParams x y dirX dirY box).1 = false := by
  simp only [raycastBox] at he
  split at he
  · exact absurd he (by simp)
  · rename_i hguard
    simp only [Bool.or_eq_true, not_or, Bool.not_eq_true] at hguard
    obtain ⟨⟨h1, h2⟩, h3⟩ := hguard
    cases he
    exact ⟨rfl, rfl, rfl, h1, h2, h3⟩

/-- A passing slab test produces exactly the `tNear` hit, with
`tNear < maxDistance`. -/
theorem slabHit_raycastBox (x y dirX dirY maxD : ℚ) (box : Bounds)
    (h : slabHit x y dirX dirY maxD box = true) :
    raycastBox x y dirX dirY maxD box =
      some { distance := (slabParams x y dirX dirY box).1,
             pointX := JSNum.jadd (JSNum.num x)
               (JSNum.jmul (JSNum.num dirX) (slabParams x y dirX dirY box).1),
             pointY := JSNum.jadd (JSNum.num y)
               (JSNum.jmul (JSNum.num dirY) (slabParams x y dirX dirY box).1) } ∧
    JSNum.jlt (slabParams x y dirX dirY box).1 (JSNum.num maxD) = true := by
  simp only [slabHit, Bool.and_eq_true] at h
  obtain ⟨⟨hle1, hle2⟩, hlt⟩ := h
  refine ⟨?_, hlt⟩
  simp only [raycastBox, JSNum.not_jlt_of_jle hle1, JSNum.not_jlt_of_jle hle2,
    JSNum.jlt_asymm hlt, Bool.or_self, Bool.or_false, Bool.false_eq_true,
    if_false]

/-- A non-null `raycastBox` hit strictly inside `maxDistance` passes the
slab test. -/
theorem raycastBox_slabHit (x y dirX dirY maxD : ℚ) (box : Bounds)
    (h : RayHit) (he : raycastBox x y dirX dirY maxD box = some h)
    (hlt : JSNum.jlt h.distance (JSNum.num maxD) = true) :
    slabHit x y dirX dirY maxD box = true := by
  obtain ⟨hd, _, _, hg1, hg2, _⟩ := raycastBox_eq_some x y dirX dirY maxD box h he
  rw [hd] at hlt
  have ht1 : (slabParams x y dirX dirY box).1 ≠ JSNum.nan :=
    (JSNum.jlt_ne_nan hlt).1
  have ht2 : (slabParams x y dirX dirY box).2 ≠ JSNum.nan := by
    intro hn
    exact ht1 (slabParams_fst_nan x y dirX dirY box hn)
  have hle1 := JSNum.jle_of_not_jlt ht2 ht1 hg1
  have hle2 := JSNum.jle_of_not_jlt ht2 (by simp) hg2
  simp [slabHit, hle1, hle2, hlt]

/-- Witness for C6: a kinematic A against movable B, movable A against
kinematic B, and a doubly kinematic pair. -/
theorem resolver_never_moves_kinematic_witness :
    movableRB kinA.gameObject.rb = false ∧
    kinematicRB kinA.gameObject.rb = true ∧
    kinematicRB kinB.gameObject.rb = true ∧
    (resolveCollision kinA resB).1 = kinA ∧
    (resolveCollision resA kinB).2 = kinB ∧
    resolveCollision kinA kinB = (kinA, kinB) :=
  ⟨rfl, rfl, rfl,
   (resolver_never_moves_kinematic kinA resB).1 rfl,
   (resolver_never_moves_kinematic resA kinB).2.1 rfl,
   (resolver_never_moves_kinematic kinA kinB).2.2 (Or.inr ⟨rfl, rfl⟩)⟩

/-- Seeing a non-qualifying collider without touching the state preserves
the raycast invariant. -/
theorem rayInv_extend_nonqual (x y dirX dirY distance : ℚ)
    (seen : List Collider) (st : JSNum × Option (RayHit × Collider))
    (c : Collider) (hq : rayQualifies x y dirX dirY distance c = false)
    (hinv : RayInv x y dirX dirY distance seen st) :
    RayInv x y dirX dirY distance (seen ++ [c]) st := by
  obtain ⟨h1, h2, h3, h4, h5⟩ := hinv
  refine ⟨h1, h2, ?_, ?_, ?_⟩
  · intro hn
    obtain ⟨ha, hb⟩ := h3 hn
    refine ⟨ha, ?_⟩
    intro c2 hc2
    rcases List.mem_append.1 hc2 with hm | hm
    · exact hb c2 hm
    · have : c2 = c := List.mem_singleton.1 hm
      subst this
      exact hq
  · intro h c2 hsome
    obtain ⟨ha, hb, hc, hd⟩ := h4 h c2 hsome
    exact ⟨List.mem_append_left _ ha, hb, hc, hd⟩
  · intro c2 hc2 hq2
    rcases List.mem_append.1 hc2 with hm | hm
    · exact h5 c2 hm hq2
    · have : c2 = c := List.mem_singleton.1 hm
      subst this
      rw [hq2] at hq
      cases hq

/-- Seeing a qualifying collider whose hit does not beat the running best
(`¬(hit.distance < best)`) preserves the invariant with unchanged state. -/
theorem rayInv_extend_kept (x y dirX dirY distance : ℚ)
    (seen : List Collider) (st : JSNum × Option (RayHit × Collider))
    (c : Collider) (hit : RayHit)
    (hbox : raycastBox x y dirX dirY distance c.getBounds = some hit)
    (hnlt : JSNum.jlt hit.distance st.1 = false)
    (hinv : RayInv x y dirX dirY distance seen st) :
    RayInv x y dirX dirY distance (seen ++ [c]) st := by
  obtain ⟨h1, h2, h3, h4, h5⟩ := hinv
  have hdist := (raycastBox_eq_some x y dirX dirY distance c.getBounds hit hbox).1
  refine ⟨h1, h2, ?_, ?_, ?_⟩
  · intro hn
    obtain ⟨ha, hb⟩ := h3 hn
    refine ⟨ha, ?_⟩
    intro c2 hc2
    rcases List.mem_append.1 hc2 with hm | hm
    · exact hb c2 hm
    · have : c2 = c := List.mem_singleton.1 hm
      subst this
      -- a qualifying c would have tNear < distance = st.1, against hnlt
      by_contra hq
      rw [Bool.not_eq_false] at hq
      have hsh : slabHit x y dirX dirY distance c2.getBounds = true := by
        simp only [rayQualifies, Bool.and_eq_true] at hq
        exact hq.2
      have hlt := (slabHit_raycastBox x y dirX dirY distance c2.getBounds hsh).2
      rw [← hdist, ← ha] at hlt
      rw [hlt] at hnlt
      cases hnlt
  · intro h c2 hsome
    obtain ⟨ha, hb, hc, hd⟩ := h4 h c2 hsome
    exact ⟨List.mem_append_left _ ha, hb, hc, hd⟩
  · intro c2 hc2 hq2
    rcases List.mem_append.1 hc2 with hm | hm
    · exact h5 c2 hm hq2
    · have : c2 = c := List.mem_singleton.1 hm
      subst this
      have hsh : slabHit x y dirX dirY distance c2.getBounds = true := by
        simp only [rayQualifies, Bool.and_eq_true] at hq2
        exact hq2.2
      have hlt := (slabHit_raycastBox x y dirX dirY distance c2.getBounds hsh).2
      have hnn : (slabParams x y dirX dirY c2.getBounds).1 ≠ JSNum.nan :=
        (JSNum.jlt_ne_nan hlt).1
      have : JSNum.jle st.1 (slabParams x y dirX dirY c2.getBounds).1 = true := by
        apply JSNum.jle_of_not_jlt hnn h1
        rw [← hdist]
        exact hnlt
      exact this

/-- Seeing a qualifying collider whose hit beats the running best replaces
the state and preserves the invariant. -/
theorem rayInv_update (x y dirX dirY distance : ℚ)
    (seen : List Collider) (st : JSNum × Option (RayHit × Collider))
    (c : Collider) (hit : RayHit)
    (hact : c.active = true) (hbk : isBoxKind c.kind = true)
    (hbox : raycastBox x y dirX dirY distance c.getBounds = some hit)
    (hlt : JSNum.jlt hit.distance st.1 = true)
    (hinv : RayInv x y dirX dirY distance seen st) :
    RayInv x y dirX dirY distance (seen ++ [c])
      (hit.distance, some (hit, c)) := by
  obtain ⟨h1, h2, h3, h4, h5⟩ := hinv
  have hdist := (raycastBox_eq_some x y dirX dirY distance c.getBounds hit hbox).1
  have hltd : JSNum.jlt hit.distance (JSNum.num distance) = true :=
    JSNum.jlt_of_jlt_of_jle hlt h2
  have hq : rayQualifies x y dirX dirY distance c = true := by
    simp only [rayQualifies, Bool.and_eq_true]
    exact ⟨⟨hact, hbk⟩,
      raycastBox_slabHit x y dirX dirY distance c.getBounds hit hbox hltd⟩
  refine ⟨(JSNum.jlt_ne_nan hlt).1, JSNum.jle_of_jlt hltd, ?_, ?_, ?_⟩
  · intro hn
    cases hn
  · intro h c2 hsome
    simp only [Option.some.injEq, Prod.mk.injEq] at hsome
    obtain ⟨hh, hc⟩ := hsome
    subst hh
    subst hc
    exact ⟨List.mem_append_right _ (List.mem_singleton.2 rfl), hq, hbox, rfl⟩
  · intro c2 hc2 hq2
    rcases List.mem_append.1 hc2 with hm | hm
    · exact JSNum.jle_of_jlt
        (JSNum.jlt_of_jlt_of_jle hlt (h5 c2 hm hq2))
    · have : c2 = c := List.mem_singleton.1 hm
      subst this
      rw [tNearOf, ← hdist]
      exact JSNum.jle_refl_of_ne_nan (JSNum.jlt_ne_nan hlt).1

/-- One step of the `raycast` loop preserves the invariant. -/
theorem raycastStep_inv (x y dirX dirY distance : ℚ)
    (seen : List Collider) (st : JSNum × Option (RayHit × Collider))
    (c : Collider)
    (hinv : RayInv x y dirX dirY distance seen st) :
    RayInv x y dirX dirY distance (seen ++ [c])
      (raycastStep x y dirX dirY distance st c) := by
  cases hact : c.active with
  | false =>
    have hstep : raycastStep x y dirX dirY distance st c = st := by
      simp [raycastStep, hact]
    rw [hstep]
    exact rayInv_extend_nonqual x y dirX dirY distance seen st c
      (by simp [rayQualifies, hact]) hinv
  | true =>
    cases hkind : c.kind with
    | circle r =>
      have hstep : raycastStep x y dirX dirY distance st c = st := by
        simp [raycastStep, hact, hkind]
      rw [hstep]
      exact rayInv_extend_nonqual x y dirX dirY distance seen st c
        (by simp [rayQualifies, isBoxKind, hkind]) hinv
    | box w hgt =>
      cases hbox : raycastBox x y dirX dirY distance c.getBounds with
      | none =>
        have hstep : raycastStep x y dirX dirY distance st c = st := by
          simp [raycastStep, hact, hkind, hbox]
        rw [hstep]
        have hq : rayQualifies x y dirX dirY distance c = false := by
          by_contra hq
          rw [Bool.not_eq_false] at hq
          simp only [rayQualifies, Bool.and_eq_true] at hq
          have := (slabHit_raycastBox x y dirX dirY distance c.getBounds hq.2).1
          rw [hbox] at this
          cases this
        exact rayInv_extend_nonqual x y dirX dirY distance seen st c hq hinv
      | some hit =>
        cases hcmp : JSNum.jlt hit.distance st.1 with
        | false =>
          have hstep : raycastStep x y dirX dirY distance st c = st := by
            simp [raycastStep, hact, hkind, hbox, hcmp]
          rw [hstep]
          exact rayInv_extend_kept x y dirX dirY distance seen st c hit hbox
            hcmp hinv
        | true =>
          have hstep : raycastStep x y dirX dirY distance st c =
              (hit.distance, some (hit, c)) := by
            simp [raycastStep, hact, hkind, hbox, hcmp]
          rw [hstep]
          exact rayInv_update x y dirX dirY distance seen st c hit hact
            (by simp [isBoxKind, hkind]) hbox hcmp hinv

/-- The raycast fold carries the invariant over any suffix of colliders. -/
theorem raycast_foldl_inv (x y dirX dirY distance : ℚ) :
    ∀ (rest seen : List Collider) (st : JSNum × Option (RayHit × Collider)),
    RayInv x y dirX dirY distance seen st →
    RayInv x y dirX dirY distance (seen ++ rest)
      (rest.foldl (raycastStep x y dirX dirY distance) st) := by
  intro rest
  induction rest with
  | nil =>
    intro seen st h
    simpa using h
  | cons c rest ih =>
    intro seen st h
    have h2 := raycastStep_inv x y dirX dirY distance seen st c h
    have h3 := ih (seen ++ [c]) (raycastStep x y dirX dirY distance st c) h2
    simpa [List.append_assoc] using h3

/-- C7 (amended): `raycast` reports a hit iff some active box collider
passes the slab test `tEntry ≤ tExit ∧ tExit ≥ 0 ∧ tEntry < maxDistance`
(strict last comparison — a box at exactly `maxDistance` is dropped by the
outer `hit.distance < closestDistance` filter); the reported hit carries
the smallest `tEntry` among qualifying boxes and the point
`origin + direction * tEntry`.  Concretely, the ray `(0,0)` → `(1,0)` of
length 100 hits box `{x:50,y:-5,w:10,h:10}` at distance 50, point
`(50, 0)`, and misses a box entirely behind the origin. -/
theorem raycast_nearest_hit (cs : List Collider) (x y dirX dirY distance : ℚ) :
    (raycast cs x y dirX dirY distance = none ↔
      ∀ c ∈ cs, rayQualifies x y dirX dirY distance c = false) ∧
    (∀ hit c, raycast cs x y dirX dirY distance = some (hit, c) →
      c ∈ cs ∧ rayQualifies x y dirX dirY distance c = true ∧
      hit.distance = tNearOf x y dirX dirY c ∧
      hit.pointX = JSNum.jadd (JSNum.num x)
        (JSNum.jmul (JSNum.num dirX) hit.distance) ∧
      hit.pointY = JSNum.jadd (JSNum.num y)
        (JSNum.jmul (JSNum.num dirY) hit.distance) ∧
      ∀ c2 ∈ cs, rayQualifies x y dirX dirY distance c2 = true →
        JSNum.jle hit.distance (tNearOf x y dirX dirY c2) = true) ∧
    raycast [hitBox] 0 0 1 0 100 =
      some ({ distance := JSNum.num 50, pointX := JSNum.num 50,
              pointY := JSNum.num 0 }, hitBox) ∧
    raycast [behindBox] 0 0 1 0 100 = none := by
  have hinv0 : RayInv x y dirX dirY distance [] (JSNum.num distance, none) := by
    refine ⟨by simp, JSNum.jle_refl_of_ne_nan (by simp), by simp, by simp,
      by simp⟩
  have hinv := raycast_foldl_inv x y dirX dirY distance cs [] _ hinv0
  rw [List.nil_append] at hinv
  obtain ⟨g1, g2, g3, g4, g5⟩ := hinv
  refine ⟨?_, ?_, ?_, ?_⟩
  · constructor
    · intro hr
      exact (g3 hr).2
    · intro hall
      cases hopt : (cs.foldl (raycastStep x y dirX dirY distance)
          (JSNum.num distance, none)).2 with
      | none => exact hopt
      | some p =>
        obtain ⟨hh, cc⟩ := p
        obtain ⟨hmem, hq, _, _⟩ := g4 hh cc hopt
        rw [hall cc hmem] at hq
        cases hq
  · intro hit c heq
    obtain ⟨hmem, hq, hbox, hst⟩ := g4 hit c heq
    obtain ⟨hd, hpx, hpy, _, _, _⟩ :=
      raycastBox_eq_some x y dirX dirY distance c.getBounds hit hbox
    refine ⟨hmem, hq, hd, by rw [hpx, hd], by rw [hpy, hd], ?_⟩
    intro c2 hc2 hq2
    rw [← hst]
    exact g5 c2 hc2 hq2
  · norm_num [raycast, raycastStep, raycastBox, slabParams, JSNum.jdiv,
      JSNum.jmin, JSNum.jmax, JSNum.jlt, JSNum.jle, JSNum.jadd, JSNum.jmul,
      hitBox, Collider.getBounds, Collider.getWorldPosition]
  · norm_num [raycast, raycastStep, raycastBox, slabParams, JSNum.jdiv,
      JSNum.jmin, JSNum.jmax, JSNum.jlt, JSNum.jle, JSNum.jadd, JSNum.jmul,
      behindBox, Collider.getBounds, Collider.getWorldPosition]

/-- C7 counterexample: a box whose `tEntry` equals `maxDistance` exactly
satisfies the claim condition `tEntry ≤ maxDistance` (the inner
`raycastBox` even returns a hit object), yet `raycast` reports no hit,
because the outer filter demands the strict
`hit.distance < closestDistance` against `closestDistance = maxDistance`. -/
theorem raycast_boundary_counterexample :
    hitBox.active = true ∧ isBoxKind hitBox.kind = true ∧
    slabHitClaim 0 0 1 0 50 hitBox.getBounds = true ∧
    (raycastBox 0 0 1 0 50 hitBox.getBounds).isSome = true ∧
    raycast [hitBox] 0 0 1 0 50 = none := by
  refine ⟨rfl, rfl, ?_, ?_, ?_⟩ <;>
    norm_num [slabHitClaim, raycastBox, raycast, raycastStep, slabParams,
      JSNum.jdiv, JSNum.jmin, JSNum.jmax, JSNum.jlt, JSNum.jle, JSNum.jadd,
      JSNum.jmul, hitBox, Collider.getBounds, Collider.getWorldPosition]

/-- Witness for C7 (amended), instantiating the theorem at the concrete
50-distant box. -/
theorem raycast_nearest_hit_witness :
    raycast [hitBox] 0 0 1 0 100 =
      some ({ distance := JSNum.num 50, pointX := JSNum.num 50,
              pointY := JSNum.num 0 }, hitBox) ∧
    hitBox ∈ [hitBox] ∧ rayQualifies 0 0 1 0 100 hitBox = true :=
  have h := raycast_nearest_hit [hitBox] 0 0 1 0 100
  have hc := h.2.1
    { distance := JSNum.num 50, pointX := JSNum.num 50, pointY := JSNum.num 0 }
    hitBox h.2.2.1
  ⟨h.2.2.1, hc.1, hc.2.1⟩

/-- C8 counterexample: with duplicated display names, two different
registered pairs (distinct indices and distinct collider identities)
produce the same contact-pair key on the same tick. -/
theorem pair_key_collision_counterexample :
    pairKey dupList 0 1 = pairKey dupList 2 3 ∧
    ((0, 1) : ℕ × ℕ) ≠ (2, 3) ∧
    (dupList.getD 0 default).id ≠ (dupList.getD 2 default).id ∧
    (dupList.getD 1 default).id ≠ (dupList.getD 3 default).id ∧
    (0, 1) ∈ pairsUpTo dupList.length ∧
    (2, 3) ∈ pairsUpTo dupList.length := by
  refine ⟨by decide, by decide, by decide, by decide, by decide, by decide⟩

/-- Splitting a dash-joined pair of dash-free character lists is
unambiguous. -/
theorem append_dash_inj :
    ∀ (l1 m1 l2 m2 : List Char), ('-' ∈ l1 → False) → ('-' ∈ m1 → False) →
    l1 ++ '-' :: l2 = m1 ++ '-' :: m2 → l1 = m1 ∧ l2 = m2 := by
  intro l1
  induction l1 with
  | nil =>
    intro m1 l2 m2 h1 h2 he
    cases m1 with
    | nil =>
      simp only [List.nil_append, List.cons.injEq, true_and] at he
      exact ⟨rfl, he⟩
    | cons d m1 =>
      simp only [List.nil_append, List.cons_append, List.cons.injEq] at he
      obtain ⟨hd, -⟩ := he
      subst hd
      exact absurd (List.mem_cons_self _ _) h2
  | cons c l1 ih =>
    intro m1 l2 m2 h1 h2 he
    cases m1 with
    | nil =>
      simp only [List.cons_append, List.nil_append, List.cons.injEq] at he
      obtain ⟨hd, -⟩ := he
      subst hd
      exact absurd (List.mem_cons_self _ _) h1
    | cons d m1 =>
      simp only [List.cons_append, List.cons.injEq] at he
      obtain ⟨hd, ht⟩ := he
      subst hd
      obtain ⟨ih1, ih2⟩ := ih m1 l2 m2
        (fun hm => h1 (List.mem_cons_of_mem _ hm))
        (fun hm => h2 (List.mem_cons_of_mem _ hm)) ht
      exact ⟨by rw [ih1], ih2⟩

/-- C8 (amended): the contact-pair key, computed only for `i < j` index
pairs (hence canonical per unordered pair), is unique per pair *provided*
every registered owner name is non-empty, dash-free, and no two registered
colliders share a name.  Without these conditions distinct pairs can alias
(see the counterexample). -/
theorem pair_key_unique_good_names (cs : List Collider)
    (hne : ∀ k, k < cs.length → (cs.getD k default).gameObject.name ≠ "")
    (hnd : ∀ k, k < cs.length →
      ('-' ∈ (cs.getD k default).gameObject.name.data → False))
    (hinj : ∀ k, k < cs.length → ∀ l, l < cs.length →
      (cs.getD k default).gameObject.name =
        (cs.getD l default).gameObject.name → k = l)
    (i j k l : ℕ) (hi : i < cs.length) (hj : j < cs.length)
    (hk : k < cs.length) (hl : l < cs.length)
    (hkey : pairKey cs i j = pairKey cs k l) :
    i = k ∧ j = l := by
  have hval : ∀ m, m < cs.length →
      nameOrIdx cs m = (cs.getD m default).gameObject.name := by
    intro m hm
    simp only [nameOrIdx]
    rw [if_neg (hne m hm)]
  rw [pairKey, pairKey, hval i hi, hval j hj, hval k hk, hval l hl] at hkey
  have hdata := congrArg String.data hkey
  simp only [String.data_append] at hdata
  simp only [List.append_assoc, List.singleton_append] at hdata
  obtain ⟨h1, h2⟩ := append_dash_inj _ _ _ _ (hnd i hi) (hnd k hk) hdata
  exact ⟨hinj i hi k hk (String.ext h1), hinj j hj l hl (String.ext h2)⟩

/-- Witness for C8 (amended) on a two-collider world with good names. -/
theorem pair_key_unique_good_names_witness :
    pairKey [rmA, rmB] 0 1 = pairKey [rmA, rmB] 0 1 ∧
    ((0 : ℕ) = 0 ∧ (1 : ℕ) = 1) :=
  ⟨rfl,
   pair_key_unique_good_names [rmA, rmB]
     (by decide) (by decide) (by decide)
     0 1 0 1 (by decide) (by decide) (by decide) (by decide) rfl⟩

/-- C10: `removeCollider` never touches the stored contact table, so a
pair recorded on the previous tick still delivers `onCollisionExit` to
both shapes — the removed one included — on the next `detectCollisions`.
Concretely: "a"/"b" overlap on tick 1 (enter fires, the pair is stored),
"b" is removed, and tick 2 delivers exit to both ids 20 and 21. -/
theorem removed_collider_still_gets_exit :
    (∀ (p : PhysicsState) (cid : ℕ),
      (removeCollider p cid).collisionMatrix = p.collisionMatrix) ∧
    (detectCollisions ⟨[rmA, rmB], []⟩).2 =
      [PhysEvent.enterEv 20 21, PhysEvent.enterEv 21 20] ∧
    (detectCollisions ⟨[rmA, rmB], []⟩).1.collisionMatrix =
      [("a-b", 20, 21)] ∧
    (removeCollider (detectCollisions ⟨[rmA, rmB], []⟩).1 21).colliders =
      [rmA] ∧
    (detectCollisions
        (removeCollider (detectCollisions ⟨[rmA, rmB], []⟩).1 21)).2 =
      [PhysEvent.exitEv 20 21, PhysEvent.exitEv 21 20] := by
  refine ⟨fun p cid => rfl, ?_, ?_, ?_, ?_⟩ <;>
    first
    | (norm_num [detectCollisions, processPair, pairsUpTo, mapSet, mapHas,
        isCollidingPair, boxIntersects, Collider.getBounds,
        Collider.getWorldPosition, resolveCollision, kinematicRB, pairKey,
        nameOrIdx, rmA, rmB, namedBox, removeCollider, List.eraseP,
        List.foldl, List.getD]; try decide)
    | decide

/-- C9 counterexample: a pair whose owning game objects are inactive but
whose collider components are active is *not* skipped — the intersection
test runs, enter events fire for both, and the Resolver moves both
entities. -/
theorem inactive_owner_not_skipped_counterexample :
    ghostA.gameObject.active = false ∧ ghostB.gameObject.active = false ∧
    ghostA.active = true ∧ ghostB.active = true ∧
    (detectCollisions ⟨[ghostA, ghostB], []⟩).2 =
      [PhysEvent.enterEv 40 41, PhysEvent.enterEv 41 40] ∧
    ((detectCollisions ⟨[ghostA, ghostB], []⟩).1.colliders.getD 0
        default).gameObject.x = -(5/2) ∧
    ((detectCollisions ⟨[ghostA, ghostB], []⟩).1.colliders.getD 1
        default).gameObject.x = 15/2 := by
  refine ⟨rfl, rfl, rfl, rfl, ?_, ?_, ?_⟩ <;>
    norm_num [detectCollisions, processPair, pairsUpTo, mapSet, mapHas,
      isCollidingPair, boxIntersects, Collider.getBounds,
      Collider.getWorldPosition, resolveCollision, resolveHorizontal,
      resolveVertical, overlapX, overlapY, movableRB, kinematicRB, pairKey,
      nameOrIdx, ghostA, ghostB, sampleDynamicBody, List.foldl, List.getD]

/-- `getD` after `set` at a different index. -/
theorem getD_set_ne {α} [Inhabited α] (l : List α) (i k : ℕ) (x : α)
    (h : k ≠ i) : (l.set i x).getD k default = l.getD k default := by
  rw [List.getD_eq_getElem?_getD, List.getD_eq_getElem?_getD,
    List.getElem?_set]
  simp [Ne.symm h]

/-- `getD` after `set` at the written, in-range index. -/
theorem getD_set_self {α} [Inhabited α] (l : List α) (i : ℕ) (x : α)
    (h : i < l.length) : (l.set i x).getD i default = x := by
  rw [List.getD_eq_getElem?_getD, List.getElem?_set]
  simp [h]

/-- `shallowEq` is reflexive. -/
theorem shallowEq_refl (c : Collider) : shallowEq c c :=
  ⟨rfl, rfl, rfl, rfl, rfl⟩

/-- `shallowEq` is transitive. -/
theorem shallowEq_trans {a b c : Collider} (h1 : shallowEq a b)
    (h2 : shallowEq b c) : shallowEq a c :=
  ⟨h1.1.trans h2.1, h1.2.1.trans h2.2.1, h1.2.2.1.trans h2.2.2.1,
   h1.2.2.2.1.trans h2.2.2.2.1, h1.2.2.2.2.trans h2.2.2.2.2⟩

/-- The horizontal branch preserves identity, flags, kind and name. -/
theorem resolveHorizontal_shallow (a b : Collider) :
    shallowEq (resolveHorizontal a b).1 a ∧
    shallowEq (resolveHorizontal a b).2 b := by
  constructor
  · unfold resolveHorizontal
    cases hra : a.gameObject.rb with
    | none => simp [hra, shallowEq]
    | some r => cases hk : r.isKinematic <;> simp [hra, hk, shallowEq]
  · unfold resolveHorizontal
    cases hrb : b.gameObject.rb with
    | none => simp [hrb, shallowEq]
    | some r => cases hk : r.isKinematic <;> simp [hrb, hk, shallowEq]

/-- The vertical branch preserves identity, flags, kind and name. -/
theorem resolveVertical_shallow (a b : Collider) :
    shallowEq (resolveVertical a b).1 a ∧
    shallowEq (resolveVertical a b).2 b := by
  constructor
  · unfold resolveVertical
    cases hra : a.gameObject.rb with
    | none => simp [hra, shallowEq]
    | some r => cases hk : r.isKinematic <;> simp [hra, hk, shallowEq]
  · unfold resolveVertical
    cases hrb : b.gameObject.rb with
    | none => simp [hrb, shallowEq]
    | some r => cases hk : r.isKinematic <;> simp [hrb, hk, shallowEq]

/-- Resolution preserves identity, flags, kind and name of both sides. -/
theorem resolveCollision_shallow (a b : Collider) :
    shallowEq (resolveCollision a b).1 a ∧
    shallowEq (resolveCollision a b).2 b := by
  unfold resolveCollision
  split
  · exact ⟨shallowEq_refl a, shallowEq_refl b⟩
  · cases hak : a.kind with
    | circle r => cases hbk : b.kind <;> exact ⟨shallowEq_refl a, shallowEq_refl b⟩
    | box w hgt =>
      cases hbk : b.kind with
      | circle r => exact ⟨shallowEq_refl a, shallowEq_refl b⟩
      | box w2 hgt2 =>
        by_cases hov : overlapX a b < overlapY a b
        · simpa [hov] using
            ⟨(resolveHorizontal_shallow a b).1, (resolveHorizontal_shallow a b).2⟩
        · simpa [hov] using
            ⟨(resolveVertical_shallow a b).1, (resolveVertical_shallow a b).2⟩

/-- A pair with an inactive component is skipped by the loop body. -/
theorem processPair_skip (matrix : List (String × ℕ × ℕ)) (st : DetectState)
    (q : ℕ × ℕ)
    (h : (st.colliders.getD q.1 default).active = false ∨
         (st.colliders.getD q.2 default).active = false) :
    processPair matrix st q = st := by
  have hg : (!(st.colliders.getD q.1 default).active ||
      !(st.colliders.getD q.2 default).active) = true := by
    rcases h with h | h
    · rw [h]; simp
    · rw [h]; simp
  unfold processPair
  simp only [List.getD_eq_getElem?_getD] at hg
  simp [hg]

/-- An active pair that does not intersect is skipped by the loop body. -/
theorem processPair_not_colliding (matrix : List (String × ℕ × ℕ))
    (st : DetectState) (q : ℕ × ℕ)
    (hc : isCollidingPair (st.colliders.getD q.1 default)
      (st.colliders.getD q.2 default) = false) :
    processPair matrix st q = st := by
  simp only [processPair]
  split
  · rfl
  · split
    · rename_i h2
      rw [hc] at h2
      exact Bool.noConfusion h2
    · rfl

/-- The colliding case of the loop body, written out. -/
theorem processPair_colliding (matrix : List (String × ℕ × ℕ))
    (st : DetectState) (q : ℕ × ℕ)
    (ha : (st.colliders.getD q.1 default).active = true)
    (hb : (st.colliders.getD q.2 default).active = true)
    (hc : isCollidingPair (st.colliders.getD q.1 default)
      (st.colliders.getD q.2 default) = true) :
    processPair matrix st q =
      (let a := st.colliders.getD q.1 default
       let b := st.colliders.getD q.2 default
       let key := pairKey st.colliders q.1 q.2
       let st1 : DetectState :=
        { st with
            newCollisions := mapSet st.newCollisions key (a.id, b.id),
            events := st.events ++
              (if mapHas matrix key then
                [PhysEvent.stayEv a.id b.id, PhysEvent.stayEv b.id a.id]
              else
                [PhysEvent.enterEv a.id b.id, PhysEvent.enterEv b.id a.id]) }
       if !a.isTrigger && !b.isTrigger then
        { st1 with
            colliders :=
              (st1.colliders.set q.1 (resolveCollision a b).1).set q.2
                (resolveCollision a b).2 }
       else st1) := by
  unfold processPair
  simp only [List.getD_eq_getElem?_getD] at ha hb hc
  simp [ha, hb, hc]

/-- Membership in the canonical pair list gives the index bounds. -/
theorem mem_pairsUpTo {n : ℕ} {q : ℕ × ℕ} (h : q ∈ pairsUpTo n) :
    q.1 < q.2 ∧ q.2 < n := by
  unfold pairsUpTo at h
  simp only [List.mem_flatMap, List.mem_map, List.mem_range] at h
  obtain ⟨i, hi, j, hj, hq⟩ := h
  have hj2 := List.mem_range'_1.mp hj
  subst hq
  omega

/-- Index bounds give membership in the canonical pair list. -/
theorem pairsUpTo_mem {n i j : ℕ} (hij : i < j) (hj : j < n) :
    (i, j) ∈ pairsUpTo n := by
  unfold pairsUpTo
  simp only [List.mem_flatMap, List.mem_map, List.mem_range]
  exact ⟨i, by omega, ⟨j, List.mem_range'_1.mpr ⟨by omega, by omega⟩, rfl⟩⟩

/-- The loop enumerates every pair at most once. -/
theorem pairsUpTo_nodup (n : ℕ) : (pairsUpTo n).Nodup := by
  unfold pairsUpTo
  rw [List.nodup_flatMap]
  constructor
  · intro i hi
    exact (List.nodup_range' _ _).map
      (fun a b hab => by simpa using congrArg Prod.snd hab)
  · apply List.Pairwise.imp ?_ (List.nodup_range (n := n))
    intro a b hab
    intro q hqa hqb
    simp only [List.mem_map] at hqa hqb
    obtain ⟨j1, -, hq1⟩ := hqa
    obtain ⟨j2, -, hq2⟩ := hqb
    apply hab
    rw [← hq1] at hq2
    simpa using (congrArg Prod.fst hq2).symm


/-- The replaced-or-appended key is present after `Map.set`. -/
theorem mapHas_mapSet_self (m : List (String × ℕ × ℕ)) (k : String)
    (v : ℕ × ℕ) : mapHas (mapSet m k v) k = true := by
  induction m with
  | nil => simp [mapSet, mapHas]
  | cons e rest ih =>
    obtain ⟨k2, v2⟩ := e
    by_cases he : k2 = k
    · simp [mapSet, he, mapHas]
    · simp only [mapSet, he, if_false, mapHas, List.any_cons] at ih ⊢
      simp [ih, he]

/-- Other keys are unaffected by `Map.set`. -/
theorem mapHas_mapSet_ne (m : List (String × ℕ × ℕ)) (k k2 : String)
    (v : ℕ × ℕ) (h : k2 ≠ k) : mapHas (mapSet m k v) k2 = mapHas m k2 := by
  induction m with
  | nil => simp [mapSet, mapHas, Ne.symm h]
  | cons e rest ih =>
    obtain ⟨k3, v3⟩ := e
    by_cases he : k3 = k
    · subst he
      simp [mapSet, mapHas, Ne.symm h]
    · simp only [mapSet, he, if_false, mapHas, List.any_cons] at ih ⊢
      simp [ih]

/-- Entries of `Map.set` come from the new binding or the old map. -/
theorem mem_mapSet (m : List (String × ℕ × ℕ)) (k : String) (v : ℕ × ℕ) :
    ∀ e ∈ mapSet m k v, e = (k, v) ∨ e ∈ m := by
  induction m with
  | nil =>
    intro e he
    simp [mapSet] at he
    left
    exact he
  | cons e2 rest ih =>
    obtain ⟨k2, v2⟩ := e2
    intro e he
    by_cases hk : k2 = k
    · simp only [mapSet, hk, if_true] at he
      rcases List.mem_cons.1 he with h1 | h1
      · left; exact h1
      · right; exact List.mem_cons_of_mem _ h1
    · simp only [mapSet, hk, if_false] at he
      rcases List.mem_cons.1 he with h1 | h1
      · right; rw [h1]; exact List.mem_cons_self _ _
      · rcases ih e h1 with h2 | h2
        · left; exact h2
        · right; exact List.mem_cons_of_mem _ h2

/-- `Map.set` keeps the key list duplicate-free. -/
theorem mapSet_keys_nodup (m : List (String × ℕ × ℕ)) (k : String)
    (v : ℕ × ℕ) (h : (m.map Prod.fst).Nodup) :
    ((mapSet m k v).map Prod.fst).Nodup := by
  induction m with
  | nil => simp [mapSet]
  | cons e rest ih =>
    obtain ⟨k2, v2⟩ := e
    simp only [List.map_cons, List.nodup_cons] at h
    by_cases hk : k2 = k
    · subst hk
      simp only [mapSet, if_true, List.map_cons, List.nodup_cons,
        eq_self_iff_true]
      exact ⟨h.1, h.2⟩
    · simp only [mapSet, hk, if_false, List.map_cons, List.nodup_cons]
      refine ⟨?_, ih h.2⟩
      intro hmem
      rcases List.mem_map.1 hmem with ⟨e, he, hfe⟩
      rcases mem_mapSet rest k v e he with h1 | h1
      · rw [h1] at hfe
        exact hk hfe.symm
      · exact h.1 (List.mem_map.2 ⟨e, h1, hfe⟩)

/-- `Map.has` is the existence of a binding for the key. -/
theorem mapHas_iff (m : List (String × ℕ × ℕ)) (k : String) :
    mapHas m k = true ↔ ∃ v, (k, v) ∈ m := by
  unfold mapHas
  rw [List.any_eq_true]
  constructor
  · rintro ⟨e, he, hp⟩
    rw [decide_eq_true_eq] at hp
    exact ⟨e.2, by rw [← hp]; simpa using he⟩
  · rintro ⟨v, hv⟩
    exact ⟨(k, v), hv, by simp⟩

/-- Splitting a list at the first occurrence of a member. -/
theorem takeWhile_ne_split {α} [DecidableEq α] (x : α) :
    ∀ l : List α, x ∈ l →
    ∃ l2, l = l.takeWhile (fun q => q ≠ x) ++ x :: l2 := by
  intro l
  induction l with
  | nil => intro h; cases h
  | cons c rest ih =>
    intro h
    by_cases hc : c = x
    · subst hc
      refine ⟨rest, ?_⟩
      simp [List.takeWhile_cons]
    · have hx : x ∈ rest := by
        rcases List.mem_cons.1 h with h1 | h1
        · exact absurd h1.symm hc
        · exact h1
      obtain ⟨l2, hl2⟩ := ih hx
      refine ⟨l2, ?_⟩
      simp only [List.takeWhile_cons, decide_eq_true_eq]
      rw [if_pos hc]
      rw [List.cons_append]
      exact congrArg (c :: ·) hl2

/-- The exit-event fold is the concatenation of per-entry chunks. -/
theorem exits_foldl (newC : List (String × ℕ × ℕ)) :
    ∀ (m : List (String × ℕ × ℕ)) (acc : List PhysEvent),
    m.foldl (fun evs e =>
      if mapHas newC e.1 then evs
      else evs ++ [PhysEvent.exitEv e.2.1 e.2.2, PhysEvent.exitEv e.2.2 e.2.1])
      acc =
    acc ++ m.flatMap (fun e =>
      if mapHas newC e.1 then []
      else [PhysEvent.exitEv e.2.1 e.2.2, PhysEvent.exitEv e.2.2 e.2.1]) := by
  intro m
  induction m with
  | nil => intro acc; simp
  | cons e rest ih =>
    intro acc
    cases hc : mapHas newC e.1 <;>
      simp [hc, ih, List.append_assoc]

/-- Counting the tracked exit deliveries in an exit phase run against a
well-formed contact table. -/
theorem exits_count (newC : List (String × ℕ × ℕ)) (K : String)
    (idI idJ : ℕ) (hne : idI ≠ idJ) :
    ∀ matrix : List (String × ℕ × ℕ),
    (∀ v, (K, v) ∈ matrix → v = (idI, idJ)) →
    (∀ e ∈ matrix, e.1 ≠ K → e.2 ≠ (idI, idJ) ∧ e.2 ≠ (idJ, idI)) →
    ((matrix.map Prod.fst).Nodup) →
    ((matrix.flatMap (fun e =>
        if mapHas newC e.1 then []
        else [PhysEvent.exitEv e.2.1 e.2.2, PhysEvent.exitEv e.2.2 e.2.1])).count
        (PhysEvent.exitEv idI idJ) =
      if mapHas matrix K = true ∧ mapHas newC K = false then 1 else 0) ∧
    ((matrix.flatMap (fun e =>
        if mapHas newC e.1 then []
        else [PhysEvent.exitEv e.2.1 e.2.2, PhysEvent.exitEv e.2.2 e.2.1])).count
        (PhysEvent.exitEv idJ idI) =
      if mapHas matrix K = true ∧ mapHas newC K = false then 1 else 0) := by
  intro matrix
  induction matrix with
  | nil =>
    intro _ _ _
    simp [mapHas]
  | cons e rest ih =>
    intro hKval hOther hnodup
    obtain ⟨k, v⟩ := e
    obtain ⟨v1, v2⟩ := v
    simp only [List.map_cons, List.nodup_cons] at hnodup
    have hrest := ih (fun w hw => hKval w (List.mem_cons_of_mem _ hw))
      (fun e2 he2 => hOther e2 (List.mem_cons_of_mem _ he2)) hnodup.2
    by_cases hkK : k = K
    · subst hkK
      have hv : (v1, v2) = (idI, idJ) := hKval (v1, v2) (List.mem_cons_self _ _)
      injection hv with hv1 hv2
      subst hv1
      subst hv2
      have hKrest : mapHas rest k = false := by
        cases hmh : mapHas rest k with
        | false => rfl
        | true =>
          obtain ⟨w, hw⟩ := (mapHas_iff rest k).1 hmh
          exact absurd (List.mem_map.2 ⟨(k, w), hw, rfl⟩) hnodup.1
      have hr1 : (rest.flatMap (fun e =>
          if mapHas newC e.1 then []
          else [PhysEvent.exitEv e.2.1 e.2.2,
            PhysEvent.exitEv e.2.2 e.2.1])).count
            (PhysEvent.exitEv v1 v2) = 0 := by
        rw [hrest.1, hKrest]
        simp
      have hr2 : (rest.flatMap (fun e =>
          if mapHas newC e.1 then []
          else [PhysEvent.exitEv e.2.1 e.2.2,
            PhysEvent.exitEv e.2.2 e.2.1])).count
            (PhysEvent.exitEv v2 v1) = 0 := by
        rw [hrest.2, hKrest]
        simp
      have hhead : mapHas ((k, (v1, v2)) :: rest) k = true := by
        simp [mapHas]
      constructor <;>
        cases hnew : mapHas newC k <;>
          simp [List.flatMap_cons, List.count_append, List.count_cons, hr1,
            hr2, hhead, hnew, PhysEvent.exitEv.injEq, hne, Ne.symm hne]
    · have hOtherHead := hOther (k, (v1, v2)) (List.mem_cons_self _ _) hkK
      have hhead : mapHas ((k, (v1, v2)) :: rest) K = mapHas rest K := by
        simp [mapHas, hkK]
      have hcount1 : ([PhysEvent.exitEv v1 v2,
          PhysEvent.exitEv v2 v1].count (PhysEvent.exitEv idI idJ)) = 0 := by
        rw [List.count_eq_zero]
        intro hmem
        simp only [List.mem_cons, List.not_mem_nil, or_false,
          List.mem_singleton] at hmem
        rcases hmem with h | h <;> injection h with h1 h2
        · exact hOtherHead.1 (Prod.ext h1.symm h2.symm)
        · exact hOtherHead.2 (Prod.ext h2.symm h1.symm)
      have hcount2 : ([PhysEvent.exitEv v1 v2,
          PhysEvent.exitEv v2 v1].count (PhysEvent.exitEv idJ idI)) = 0 := by
        rw [List.count_eq_zero]
        intro hmem
        simp only [List.mem_cons, List.not_mem_nil, or_false,
          List.mem_singleton] at hmem
        rcases hmem with h | h <;> injection h with h1 h2
        · exact hOtherHead.2 (Prod.ext h1.symm h2.symm)
        · exact hOtherHead.1 (Prod.ext h2.symm h1.symm)
      cases hnew : mapHas newC k with
      | true =>
        constructor <;>
          simp [List.flatMap_cons, hnew, hrest.1, hrest.2, hhead]
      | false =>
        have hflat : ((k, (v1, v2)) :: rest).flatMap (fun e =>
            if mapHas newC e.1 then []
            else [PhysEvent.exitEv e.2.1 e.2.2,
              PhysEvent.exitEv e.2.2 e.2.1]) =
            [PhysEvent.exitEv v1 v2, PhysEvent.exitEv v2 v1] ++
            rest.flatMap (fun e =>
              if mapHas newC e.1 then []
              else [PhysEvent.exitEv e.2.1 e.2.2,
                PhysEvent.exitEv e.2.2 e.2.1]) := by
          simp [List.flatMap_cons, hnew]
        constructor
        · rw [hflat, List.count_append, hcount1, hrest.1, hhead]
          simp
        · rw [hflat, List.count_append, hcount2, hrest.2, hhead]
          simp

/-- The collider array after one loop-body step: unchanged, or the two
resolved colliders written back at the pair indices. -/
theorem processPair_colliders (matrix : List (String × ℕ × ℕ))
    (st : DetectState) (q : ℕ × ℕ) :
    (processPair matrix st q).colliders = st.colliders ∨
    (processPair matrix st q).colliders =
      (st.colliders.set q.1
        (resolveCollision (st.colliders.getD q.1 default)
          (st.colliders.getD q.2 default)).1).set q.2
        (resolveCollision (st.colliders.getD q.1 default)
          (st.colliders.getD q.2 default)).2 := by
  simp only [processPair]
  split
  · exact Or.inl rfl
  · split
    · split
      · exact Or.inr rfl
      · exact Or.inl rfl
    · exact Or.inl rfl

/-- The contact table after one loop-body step: unchanged, or the pair key
overwritten with the identity pair. -/
theorem processPair_newCollisions (matrix : List (String × ℕ × ℕ))
    (st : DetectState) (q : ℕ × ℕ) :
    (processPair matrix st q).newCollisions = st.newCollisions ∨
    (processPair matrix st q).newCollisions =
      mapSet st.newCollisions (pairKey st.colliders q.1 q.2)
        ((st.colliders.getD q.1 default).id,
         (st.colliders.getD q.2 default).id) := by
  simp only [processPair]
  split
  · exact Or.inl rfl
  · split
    · split
      · exact Or.inr rfl
      · exact Or.inr rfl
    · exact Or.inl rfl

/-- The deliveries after one loop-body step: unchanged, or one stay pair,
or one enter pair, always with the identities of the two tested
colliders. -/
theorem processPair_events (matrix : List (String × ℕ × ℕ))
    (st : DetectState) (q : ℕ × ℕ) :
    (processPair matrix st q).events = st.events ∨
    (processPair matrix st q).events = st.events ++
      [PhysEvent.stayEv (st.colliders.getD q.1 default).id
        (st.colliders.getD q.2 default).id,
       PhysEvent.stayEv (st.colliders.getD q.2 default).id
        (st.colliders.getD q.1 default).id] ∨
    (processPair matrix st q).events = st.events ++
      [PhysEvent.enterEv (st.colliders.getD q.1 default).id
        (st.colliders.getD q.2 default).id,
       PhysEvent.enterEv (st.colliders.getD q.2 default).id
        (st.colliders.getD q.1 default).id] := by
  simp only [processPair]
  split
  · exact Or.inl rfl
  · split
    · cases hm : mapHas matrix (pairKey st.colliders q.1 q.2)
      · split
        · right; right; simp [hm]
        · right; right; simp [hm]
      · split
        · right; left; simp [hm]
        · right; left; simp [hm]
    · exact Or.inl rfl

/-- One loop-body step never changes the collider count. -/
theorem processPair_length (matrix : List (String × ℕ × ℕ))
    (st : DetectState) (q : ℕ × ℕ) :
    (processPair matrix st q).colliders.length = st.colliders.length := by
  rcases processPair_colliders matrix st q with h | h <;> rw [h] <;> simp

/-- One loop-body step preserves every collider shallowly. -/
theorem processPair_getD_shallow (matrix : List (String × ℕ × ℕ))
    (st : DetectState) (q : ℕ × ℕ) (k : ℕ) :
    shallowEq ((processPair matrix st q).colliders.getD k default)
      (st.colliders.getD k default) := by
  rcases processPair_colliders matrix st q with h | h
  · rw [h]; exact shallowEq_refl _
  · rw [h]
    by_cases hk2 : k = q.2
    · rw [hk2]
      by_cases hb : q.2 < st.colliders.length
      · rw [getD_set_self _ _ _ (by simpa using hb)]
        exact (resolveCollision_shallow _ _).2
      · push_neg at hb
        rw [List.getD_eq_default _ _ (by simpa using hb),
          List.getD_eq_default _ _ hb]
        exact shallowEq_refl _
    · rw [getD_set_ne _ _ _ _ hk2]
      by_cases hk1 : k = q.1
      · rw [hk1]
        by_cases hb : q.1 < st.colliders.length
        · rw [getD_set_self _ _ _ hb]
          exact (resolveCollision_shallow _ _).1
        · push_neg at hb
          have e1 : ((st.colliders.set q.1 (resolveCollision
              (st.colliders.getD q.1 default)
              (st.colliders.getD q.2 default)).1)).getD q.1 default =
              default :=
            List.getD_eq_default _ _ (by simpa using hb)
          have e2 : st.colliders.getD q.1 default = default :=
            List.getD_eq_default _ _ hb
          rw [e1, e2]
          exact shallowEq_refl _
      · rw [getD_set_ne _ _ _ _ hk1]
        exact shallowEq_refl _

/-- One loop-body step leaves colliders at other indices untouched. -/
theorem processPair_getD_ne (matrix : List (String × ℕ × ℕ))
    (st : DetectState) (q : ℕ × ℕ) (k : ℕ) (h1 : k ≠ q.1) (h2 : k ≠ q.2) :
    (processPair matrix st q).colliders.getD k default =
      st.colliders.getD k default := by
  rcases processPair_colliders matrix st q with h | h
  · rw [h]
  · rw [h, getD_set_ne _ _ _ _ h2, getD_set_ne _ _ _ _ h1]

/-- Pair keys only read the display names, so shallowly equal collider
arrays give equal keys. -/
theorem pairKey_shallow (cs1 cs2 : List Collider)
    (h : ∀ k, shallowEq (cs1.getD k default) (cs2.getD k default))
    (i j : ℕ) : pairKey cs1 i j = pairKey cs2 i j := by
  simp only [pairKey, nameOrIdx]
  rw [(h i).2.2.2.2, (h j).2.2.2.2]

/-- Folding the loop body over pairs other than `(i, j)` preserves the
tracked key of the new table, the counts of the tracked deliveries, and
the well-formedness of the new table, while keeping the collider array
shallowly equal to the tick input. -/
theorem detect_segment (matrix : List (String × ℕ × ℕ))
    (cs0 : List Collider) (i j idI idJ : ℕ) (K : String)
    (hidI : (cs0.getD i default).id = idI)
    (hidJ : (cs0.getD j default).id = idJ)
    (hij : i < j) (hjn : j < cs0.length)
    (hids : ∀ k l, k < cs0.length → l < cs0.length → k ≠ l →
      (cs0.getD k default).id ≠ (cs0.getD l default).id)
    (huniq : ∀ k l, (k, l) ∈ pairsUpTo cs0.length → (k, l) ≠ (i, j) →
      pairKey cs0 k l ≠ K) :
    ∀ (Q : List (ℕ × ℕ)) (st : DetectState),
    (∀ q ∈ Q, q ∈ pairsUpTo cs0.length ∧ q ≠ (i, j)) →
    st.colliders.length = cs0.length →
    (∀ k, shallowEq (st.colliders.getD k default) (cs0.getD k default)) →
    ((Q.foldl (processPair matrix) st).colliders.length = cs0.length ∧
     (∀ k, shallowEq
       ((Q.foldl (processPair matrix) st).colliders.getD k default)
       (cs0.getD k default)) ∧
     mapHas (Q.foldl (processPair matrix) st).newCollisions K =
       mapHas st.newCollisions K ∧
     (∀ en ∈ (Q.foldl (processPair matrix) st).newCollisions,
       en ∈ st.newCollisions ∨
       (en.1 ≠ K ∧ en.2 ≠ (idI, idJ) ∧ en.2 ≠ (idJ, idI))) ∧
     ((st.newCollisions.map Prod.fst).Nodup →
       ((Q.foldl (processPair matrix) st).newCollisions.map
         Prod.fst).Nodup) ∧
     (∀ x y, (Q.foldl (processPair matrix) st).events.count
       (PhysEvent.exitEv x y) = st.events.count (PhysEvent.exitEv x y)) ∧
     (Q.foldl (processPair matrix) st).events.count
       (PhysEvent.enterEv idI idJ) =
       st.events.count (PhysEvent.enterEv idI idJ) ∧
     (Q.foldl (processPair matrix) st).events.count
       (PhysEvent.enterEv idJ idI) =
       st.events.count (PhysEvent.enterEv idJ idI) ∧
     (Q.foldl (processPair matrix) st).events.count
       (PhysEvent.stayEv idI idJ) =
       st.events.count (PhysEvent.stayEv idI idJ) ∧
     (Q.foldl (processPair matrix) st).events.count
       (PhysEvent.stayEv idJ idI) =
       st.events.count (PhysEvent.stayEv idJ idI)) := by
  intro Q
  induction Q with
  | nil =>
    intro st hQ hlen hsh
    exact ⟨hlen, hsh, rfl, fun en he => Or.inl he, fun h => h,
      fun x y => rfl, rfl, rfl, rfl, rfl⟩
  | cons q Q ih =>
    intro st hQ hlen hsh
    obtain ⟨hqmem, hqne⟩ := hQ q (List.mem_cons_self _ _)
    obtain ⟨hq12, hq2n⟩ := mem_pairsUpTo hqmem
    have hlen1 : (processPair matrix st q).colliders.length = cs0.length := by
      rw [processPair_length]
      exact hlen
    have hsh1 : ∀ k,
        shallowEq ((processPair matrix st q).colliders.getD k default)
          (cs0.getD k default) :=
      fun k => shallowEq_trans (processPair_getD_shallow matrix st q k) (hsh k)
    have hkeyq : pairKey st.colliders q.1 q.2 = pairKey cs0 q.1 q.2 :=
      pairKey_shallow _ _ hsh q.1 q.2
    have hkq : pairKey st.colliders q.1 q.2 ≠ K := by
      rw [hkeyq]
      exact huniq q.1 q.2 (by simpa using hqmem) (by simpa using hqne)
    have haid : (st.colliders.getD q.1 default).id =
        (cs0.getD q.1 default).id := (hsh q.1).1
    have hbid : (st.colliders.getD q.2 default).id =
        (cs0.getD q.2 default).id := (hsh q.2).1
    have hvq : ((st.colliders.getD q.1 default).id,
        (st.colliders.getD q.2 default).id) ≠ (idI, idJ) ∧
        ((st.colliders.getD q.1 default).id,
        (st.colliders.getD q.2 default).id) ≠ (idJ, idI) := by
      constructor
      · intro hcon
        rw [Prod.mk.injEq] at hcon
        obtain ⟨h1, h2⟩ := hcon
        have hq1i : q.1 = i := by
          by_contra hne
          exact hids q.1 i (lt_trans hq12 hq2n) (lt_trans hij hjn) hne
            (by rw [← haid, h1, hidI])
        have hq2j : q.2 = j := by
          by_contra hne
          exact hids q.2 j hq2n hjn hne (by rw [← hbid, h2, hidJ])
        exact hqne (Prod.ext hq1i hq2j)
      · intro hcon
        rw [Prod.mk.injEq] at hcon
        obtain ⟨h1, h2⟩ := hcon
        have hq1j : q.1 = j := by
          by_contra hne
          exact hids q.1 j (lt_trans hq12 hq2n) hjn hne
            (by rw [← haid, h1, hidJ])
        have hq2i : q.2 = i := by
          by_contra hne
          exact hids q.2 i hq2n (lt_trans hij hjn) hne
            (by rw [← hbid, h2, hidI])
        omega
    have hkey1 : mapHas (processPair matrix st q).newCollisions K =
        mapHas st.newCollisions K := by
      rcases processPair_newCollisions matrix st q with h | h
      · rw [h]
      · rw [h, mapHas_mapSet_ne _ _ _ _ (Ne.symm hkq)]
    have hent1 : ∀ en ∈ (processPair matrix st q).newCollisions,
        en ∈ st.newCollisions ∨
        (en.1 ≠ K ∧ en.2 ≠ (idI, idJ) ∧ en.2 ≠ (idJ, idI)) := by
      rcases processPair_newCollisions matrix st q with h | h
      · rw [h]
        exact fun en he => Or.inl he
      · rw [h]
        intro en he
        rcases mem_mapSet _ _ _ en he with h1 | h1
        · right
          rw [h1]
          exact ⟨hkq, hvq.1, hvq.2⟩
        · left
          exact h1
    have hnd1 : (st.newCollisions.map Prod.fst).Nodup →
        ((processPair matrix st q).newCollisions.map Prod.fst).Nodup := by
      rcases processPair_newCollisions matrix st q with h | h
      · rw [h]
        exact id
      · rw [h]
        exact mapSet_keys_nodup _ _ _
    have hstep_events : ∀ ev : PhysEvent,
        ([PhysEvent.stayEv (st.colliders.getD q.1 default).id
            (st.colliders.getD q.2 default).id,
          PhysEvent.stayEv (st.colliders.getD q.2 default).id
            (st.colliders.getD q.1 default).id].count ev = 0 ∧
         [PhysEvent.enterEv (st.colliders.getD q.1 default).id
            (st.colliders.getD q.2 default).id,
          PhysEvent.enterEv (st.colliders.getD q.2 default).id
            (st.colliders.getD q.1 default).id].count ev = 0) →
        (processPair matrix st q).events.count ev = st.events.count ev := by
      intro ev hz
      rcases processPair_events matrix st q with h | h | h
      · rw [h]
      · rw [h, List.count_append, hz.1]
        simp
      · rw [h, List.count_append, hz.2]
        simp
    have hzexit : ∀ x y,
        [PhysEvent.stayEv (st.colliders.getD q.1 default).id
           (st.colliders.getD q.2 default).id,
         PhysEvent.stayEv (st.colliders.getD q.2 default).id
           (st.colliders.getD q.1 default).id].count
          (PhysEvent.exitEv x y) = 0 ∧
        [PhysEvent.enterEv (st.colliders.getD q.1 default).id
           (st.colliders.getD q.2 default).id,
         PhysEvent.enterEv (st.colliders.getD q.2 default).id
           (st.colliders.getD q.1 default).id].count
          (PhysEvent.exitEv x y) = 0 := by
      intro x y
      constructor <;> simp [List.count_eq_zero]
    have hzenterIJ :
        [PhysEvent.stayEv (st.colliders.getD q.1 default).id
           (st.colliders.getD q.2 default).id,
         PhysEvent.stayEv (st.colliders.getD q.2 default).id
           (st.colliders.getD q.1 default).id].count
          (PhysEvent.enterEv idI idJ) = 0 ∧
        [PhysEvent.enterEv (st.colliders.getD q.1 default).id
           (st.colliders.getD q.2 default).id,
         PhysEvent.enterEv (st.colliders.getD q.2 default).id
           (st.colliders.getD q.1 default).id].count
          (PhysEvent.enterEv idI idJ) = 0 := by
      constructor
      · simp [List.count_eq_zero]
      · rw [List.count_eq_zero]
        intro hmem
        simp only [List.mem_cons, List.not_mem_nil, or_false,
          List.mem_singleton] at hmem
        rcases hmem with h | h <;> injection h with h1 h2
        · exact hvq.1 (Prod.ext h1.symm h2.symm)
        · exact hvq.2 (Prod.ext h2.symm h1.symm)
    have hzenterJI :
        [PhysEvent.stayEv (st.colliders.getD q.1 default).id
           (st.colliders.getD q.2 default).id,
         PhysEvent.stayEv (st.colliders.getD q.2 default).id
           (st.colliders.getD q.1 default).id].count
          (PhysEvent.enterEv idJ idI) = 0 ∧
        [PhysEvent.enterEv (st.colliders.getD q.1 default).id
           (st.colliders.getD q.2 default).id,
         PhysEvent.enterEv (st.colliders.getD q.2 default).id
           (st.colliders.getD q.1 default).id].count
          (PhysEvent.enterEv idJ idI) = 0 := by
      constructor
      · simp [List.count_eq_zero]
      · rw [List.count_eq_zero]
        intro hmem
        simp only [List.mem_cons, List.not_mem_nil, or_false,
          List.mem_singleton] at hmem
        rcases hmem with h | h <;> injection h with h1 h2
        · exact hvq.2 (Prod.ext h1.symm h2.symm)
        · exact hvq.1 (Prod.ext h2.symm h1.symm)
    have hzstayIJ :
        [PhysEvent.stayEv (st.colliders.getD q.1 default).id
           (st.colliders.getD q.2 default).id,
         PhysEvent.stayEv (st.colliders.getD q.2 default).id
           (st.colliders.getD q.1 default).id].count
          (PhysEvent.stayEv idI idJ) = 0 ∧
        [PhysEvent.enterEv (st.colliders.getD q.1 default).id
           (st.colliders.getD q.2 default).id,
         PhysEvent.enterEv (st.colliders.getD q.2 default).id
           (st.colliders.getD q.1 default).id].count
          (PhysEvent.stayEv idI idJ) = 0 := by
      constructor
      · rw [List.count_eq_zero]
        intro hmem
        simp only [List.mem_cons, List.not_mem_nil, or_false,
          List.mem_singleton] at hmem
        rcases hmem with h | h <;> injection h with h1 h2
        · exact hvq.1 (Prod.ext h1.symm h2.symm)
        · exact hvq.2 (Prod.ext h2.symm h1.symm)
      · simp [List.count_eq_zero]
    have hzstayJI :
        [PhysEvent.stayEv (st.colliders.getD q.1 default).id
           (st.colliders.getD q.2 default).id,
         PhysEvent.stayEv (st.colliders.getD q.2 default).id
           (st.colliders.getD q.1 default).id].count
          (PhysEvent.stayEv idJ idI) = 0 ∧
        [PhysEvent.enterEv (st.colliders.getD q.1 default).id
           (st.colliders.getD q.2 default).id,
         PhysEvent.enterEv (st.colliders.getD q.2 default).id
           (st.colliders.getD q.1 default).id].count
          (PhysEvent.stayEv idJ idI) = 0 := by
      constructor
      · rw [List.count_eq_zero]
        intro hmem
        simp only [List.mem_cons, List.not_mem_nil, or_false,
          List.mem_singleton] at hmem
        rcases hmem with h | h <;> injection h with h1 h2
        · exact hvq.2 (Prod.ext h1.symm h2.symm)
        · exact hvq.1 (Prod.ext h2.symm h1.symm)
      · simp [List.count_eq_zero]
    have hres := ih (processPair matrix st q)
      (fun q2 hq2 => hQ q2 (List.mem_cons_of_mem _ hq2)) hlen1 hsh1
    rw [List.foldl_cons]
    refine ⟨hres.1, hres.2.1, ?_, ?_, ?_, ?_, ?_, ?_, ?_, ?_⟩
    · rw [hres.2.2.1, hkey1]
    · intro en he
      rcases hres.2.2.2.1 en he with h1 | h1
      · exact hent1 en h1
      · right
        exact h1
    · intro hnd
      exact hres.2.2.2.2.1 (hnd1 hnd)
    · intro x y
      rw [hres.2.2.2.2.2.1 x y, hstep_events _ (hzexit x y)]
    · rw [hres.2.2.2.2.2.2.1, hstep_events _ hzenterIJ]
    · rw [hres.2.2.2.2.2.2.2.1, hstep_events _ hzenterJI]
    · rw [hres.2.2.2.2.2.2.2.2.1, hstep_events _ hzstayIJ]
    · rw [hres.2.2.2.2.2.2.2.2.2, hstep_events _ hzstayJI]

/-- `detectUpTo` written out as the fold it is defined to be. -/
theorem detectUpTo_eq (matrix : List (String × ℕ × ℕ)) (cs : List Collider)
    (i j : ℕ) : detectUpTo matrix cs i j =
    ((pairsUpTo cs.length).takeWhile (fun q => q ≠ (i, j))).foldl
      (processPair matrix) ⟨cs, [], []⟩ := rfl

/-- The colliding loop-body case: the contact table gains the pair key
bound to the two identities. -/
theorem processPair_colliding_new (matrix : List (String × ℕ × ℕ))
    (st : DetectState) (i j : ℕ)
    (ha : (st.colliders.getD i default).active = true)
    (hb : (st.colliders.getD j default).active = true)
    (hc : isCollidingPair (st.colliders.getD i default)
      (st.colliders.getD j default) = true) :
    (processPair matrix st (i, j)).newCollisions =
      mapSet st.newCollisions (pairKey st.colliders i j)
        ((st.colliders.getD i default).id,
         (st.colliders.getD j default).id) := by
  simp only [processPair]
  simp only [List.getD_eq_getElem?_getD] at ha hb hc
  simp [ha, hb, hc]
  all_goals split <;> first | rfl | (split <;> rfl)

/-- The colliding loop-body case: the deliveries gain the stay pair when
the key was present in the previous table, the enter pair otherwise. -/
theorem processPair_colliding_events (matrix : List (String × ℕ × ℕ))
    (st : DetectState) (i j : ℕ)
    (ha : (st.colliders.getD i default).active = true)
    (hb : (st.colliders.getD j default).active = true)
    (hc : isCollidingPair (st.colliders.getD i default)
      (st.colliders.getD j default) = true) :
    (processPair matrix st (i, j)).events = st.events ++
      (if mapHas matrix (pairKey st.colliders i j) then
        [PhysEvent.stayEv (st.colliders.getD i default).id
          (st.colliders.getD j default).id,
         PhysEvent.stayEv (st.colliders.getD j default).id
          (st.colliders.getD i default).id]
      else
        [PhysEvent.enterEv (st.colliders.getD i default).id
          (st.colliders.getD j default).id,
         PhysEvent.enterEv (st.colliders.getD j default).id
          (st.colliders.getD i default).id]) := by
  simp only [processPair]
  simp only [List.getD_eq_getElem?_getD] at ha hb hc
  simp [ha, hb, hc]
  all_goals split <;> first | rfl | (split <;> rfl)

/-- The exit phase delivers nothing but exit callbacks. -/
theorem exits_count_other (newC matrix : List (String × ℕ × ℕ))
    (ev : PhysEvent) (h : ∀ x y, ev ≠ PhysEvent.exitEv x y) :
    (matrix.flatMap (fun e =>
      if mapHas newC e.1 then []
      else [PhysEvent.exitEv e.2.1 e.2.2,
        PhysEvent.exitEv e.2.2 e.2.1])).count ev = 0 := by
  rw [List.count_eq_zero]
  intro hmem
  rcases List.mem_flatMap.1 hmem with ⟨e, -, hin⟩
  split at hin
  · cases hin
  · rcases List.mem_cons.1 hin with h1 | h1
    · exact h _ _ h1
    · rcases List.mem_cons.1 h1 with h2 | h2
      · exact h _ _ h2
      · cases h2

/-- One full `detectCollisions` pass, seen from the tracked pair `(i, j)`
with collision-free key `K`: the new table holds `K` exactly when the pass
tested the pair as colliding; `K` maps to the identity pair; no other
entry carries the tracked identities; and the pass delivers exactly the
enter, stay and exit events the contact lifecycle prescribes. -/
theorem detect_pass_pair (matrix : List (String × ℕ × ℕ))
    (cs0 : List Collider) (i j idI idJ : ℕ) (K : String)
    (hidI : (cs0.getD i default).id = idI)
    (hidJ : (cs0.getD j default).id = idJ)
    (hne : idI ≠ idJ)
    (hij : i < j) (hjn : j < cs0.length)
    (hids : ∀ k l, k < cs0.length → l < cs0.length → k ≠ l →
      (cs0.getD k default).id ≠ (cs0.getD l default).id)
    (hK : pairKey cs0 i j = K)
    (huniq : ∀ k l, (k, l) ∈ pairsUpTo cs0.length → (k, l) ≠ (i, j) →
      pairKey cs0 k l ≠ K)
    (hmK : ∀ v, (K, v) ∈ matrix → v = (idI, idJ))
    (hmO : ∀ e ∈ matrix, e.1 ≠ K → e.2 ≠ (idI, idJ) ∧ e.2 ≠ (idJ, idI))
    (hmnd : (matrix.map Prod.fst).Nodup) :
    mapHas (detectCollisions ⟨cs0, matrix⟩).1.collisionMatrix K =
      pairTested matrix cs0 i j ∧
    (∀ v, (K, v) ∈ (detectCollisions ⟨cs0, matrix⟩).1.collisionMatrix →
      v = (idI, idJ)) ∧
    (∀ e ∈ (detectCollisions ⟨cs0, matrix⟩).1.collisionMatrix, e.1 ≠ K →
      e.2 ≠ (idI, idJ) ∧ e.2 ≠ (idJ, idI)) ∧
    ((detectCollisions ⟨cs0, matrix⟩).1.collisionMatrix.map Prod.fst).Nodup ∧
    ((detectCollisions ⟨cs0, matrix⟩).2.count (PhysEvent.enterEv idI idJ) =
      if pairTested matrix cs0 i j = true ∧ mapHas matrix K = false then 1
      else 0) ∧
    ((detectCollisions ⟨cs0, matrix⟩).2.count (PhysEvent.enterEv idJ idI) =
      if pairTested matrix cs0 i j = true ∧ mapHas matrix K = false then 1
      else 0) ∧
    ((detectCollisions ⟨cs0, matrix⟩).2.count (PhysEvent.stayEv idI idJ) =
      if pairTested matrix cs0 i j = true ∧ mapHas matrix K = true then 1
      else 0) ∧
    ((detectCollisions ⟨cs0, matrix⟩).2.count (PhysEvent.stayEv idJ idI) =
      if pairTested matrix cs0 i j = true ∧ mapHas matrix K = true then 1
      else 0) ∧
    ((detectCollisions ⟨cs0, matrix⟩).2.count (PhysEvent.exitEv idI idJ) =
      if mapHas matrix K = true ∧ pairTested matrix cs0 i j = false then 1
      else 0) ∧
    ((detectCollisions ⟨cs0, matrix⟩).2.count (PhysEvent.exitEv idJ idI) =
      if mapHas matrix K = true ∧ pairTested matrix cs0 i j = false then 1
      else 0) := by
  have hmem : (i, j) ∈ pairsUpTo cs0.length := pairsUpTo_mem hij hjn
  obtain ⟨P2, hsplit⟩ := takeWhile_ne_split (i, j) (pairsUpTo cs0.length) hmem
  have hP1mem : ∀ q ∈ (pairsUpTo cs0.length).takeWhile (fun q => q ≠ (i, j)),
      q ∈ pairsUpTo cs0.length ∧ q ≠ (i, j) := by
    intro q hq
    refine ⟨?_, ?_⟩
    · rw [hsplit]
      exact List.mem_append_left _ hq
    · have := List.mem_takeWhile_imp hq
      simpa using this
  have hnodup := pairsUpTo_nodup cs0.length
  rw [hsplit] at hnodup
  have hP2ne : (i, j) ∉ P2 :=
    (List.nodup_cons.1 (List.nodup_append.1 hnodup).2.1).1
  have hP2mem : ∀ q ∈ P2, q ∈ pairsUpTo cs0.length ∧ q ≠ (i, j) := by
    intro q hq
    refine ⟨?_, ?_⟩
    · rw [hsplit]
      exact List.mem_append_right _ (List.mem_cons_of_mem _ hq)
    · intro hcon
      exact hP2ne (hcon ▸ hq)
  have hseg1 := detect_segment matrix cs0 i j idI idJ K hidI hidJ hij hjn
    hids huniq ((pairsUpTo cs0.length).takeWhile (fun q => q ≠ (i, j)))
    ⟨cs0, [], []⟩ hP1mem rfl (fun k => shallowEq_refl _)
  obtain ⟨hlen1, hsh1, hkey1, hent1, hnd1, hx1, he1, he1b, hs1, hs1b⟩ := hseg1
  rw [← detectUpTo_eq matrix cs0 i j] at hlen1 hsh1 hkey1 hent1 hnd1
  rw [← detectUpTo_eq matrix cs0 i j] at hx1 he1 he1b hs1 hs1b
  -- the state just before the tracked pair is processed
  have hkey1f : mapHas (detectUpTo matrix cs0 i j).newCollisions K = false :=
    hkey1
  have hkeyij : pairKey (detectUpTo matrix cs0 i j).colliders i j = K := by
    rw [pairKey_shallow _ _ hsh1 i j, hK]
  have haidI : ((detectUpTo matrix cs0 i j).colliders.getD i default).id =
      idI := by
    rw [(hsh1 i).1, hidI]
  have hbidJ : ((detectUpTo matrix cs0 i j).colliders.getD j default).id =
      idJ := by
    rw [(hsh1 j).1, hidJ]
  -- the loop result equals the tail folded over the middle step
  have hloop : (pairsUpTo cs0.length).foldl (processPair matrix)
      ⟨cs0, [], []⟩ =
      P2.foldl (processPair matrix)
        (processPair matrix (detectUpTo matrix cs0 i j) (i, j)) := by
    rw [hsplit, List.foldl_append, List.foldl_cons]
    rfl
  -- facts about the middle step, by the tested outcome
  have hmid :
      (mapHas (processPair matrix (detectUpTo matrix cs0 i j)
        (i, j)).newCollisions K = pairTested matrix cs0 i j) ∧
      (∀ en ∈ (processPair matrix (detectUpTo matrix cs0 i j)
          (i, j)).newCollisions,
        en = (K, (idI, idJ)) ∨
          en ∈ (detectUpTo matrix cs0 i j).newCollisions) ∧
      (((processPair matrix (detectUpTo matrix cs0 i j)
        (i, j)).newCollisions.map Prod.fst).Nodup) ∧
      ((processPair matrix (detectUpTo matrix cs0 i j) (i, j)).events.count
          (PhysEvent.enterEv idI idJ) =
        if pairTested matrix cs0 i j = true ∧ mapHas matrix K = false then 1
        else 0) ∧
      ((processPair matrix (detectUpTo matrix cs0 i j) (i, j)).events.count
          (PhysEvent.enterEv idJ idI) =
        if pairTested matrix cs0 i j = true ∧ mapHas matrix K = false then 1
        else 0) ∧
      ((processPair matrix (detectUpTo matrix cs0 i j) (i, j)).events.count
          (PhysEvent.stayEv idI idJ) =
        if pairTested matrix cs0 i j = true ∧ mapHas matrix K = true then 1
        else 0) ∧
      ((processPair matrix (detectUpTo matrix cs0 i j) (i, j)).events.count
          (PhysEvent.stayEv idJ idI) =
        if pairTested matrix cs0 i j = true ∧ mapHas matrix K = true then 1
        else 0) ∧
      (∀ x y, (processPair matrix (detectUpTo matrix cs0 i j)
          (i, j)).events.count (PhysEvent.exitEv x y) = 0) := by
    cases hT : pairTested matrix cs0 i j with
    | false =>
      have hstep : processPair matrix (detectUpTo matrix cs0 i j) (i, j) =
          detectUpTo matrix cs0 i j := by
        cases ha : ((detectUpTo matrix cs0 i j).colliders.getD i
            default).active with
        | false => exact processPair_skip _ _ _ (Or.inl ha)
        | true =>
          cases hb : ((detectUpTo matrix cs0 i j).colliders.getD j
              default).active with
          | false => exact processPair_skip _ _ _ (Or.inr hb)
          | true =>
            cases hc : isCollidingPair
                ((detectUpTo matrix cs0 i j).colliders.getD i default)
                ((detectUpTo matrix cs0 i j).colliders.getD j default) with
            | false => exact processPair_not_colliding _ _ _ hc
            | true =>
              simp only [pairTested] at hT
              rw [ha, hb, hc] at hT
              simp at hT
      rw [hstep]
      refine ⟨hkey1f, fun en he => Or.inr he, hnd1 (by simp), ?_, ?_, ?_, ?_,
        ?_⟩
      · rw [he1]
        simp
      · rw [he1b]
        simp
      · rw [hs1]
        simp
      · rw [hs1b]
        simp
      · intro x y
        rw [hx1 x y]
        simp
    | true =>
      have hT2 := hT
      simp only [pairTested, Bool.and_eq_true] at hT2
      obtain ⟨⟨ha, hb⟩, hc⟩ := hT2
      have hnew2 := processPair_colliding_new matrix
        (detectUpTo matrix cs0 i j) i j ha hb hc
      have hev2 := processPair_colliding_events matrix
        (detectUpTo matrix cs0 i j) i j ha hb hc
      simp only [hkeyij, haidI, hbidJ] at hnew2 hev2
      refine ⟨?_, ?_, ?_, ?_, ?_, ?_, ?_, ?_⟩
      · rw [hnew2]
        exact mapHas_mapSet_self _ _ _
      · rw [hnew2]
        exact mem_mapSet _ _ _
      · rw [hnew2]
        exact mapSet_keys_nodup _ _ _ (hnd1 (by simp))
      · rw [hev2, List.count_append, he1]
        cases hm : mapHas matrix K <;> simp [hne, List.count_cons]
      · rw [hev2, List.count_append, he1b]
        cases hm : mapHas matrix K <;>
          simp [hne, Ne.symm hne, List.count_cons]
      · rw [hev2, List.count_append, hs1]
        cases hm : mapHas matrix K <;> simp [hne, List.count_cons]
      · rw [hev2, List.count_append, hs1b]
        cases hm : mapHas matrix K <;>
          simp [hne, Ne.symm hne, List.count_cons]
      · intro x y
        rw [hev2, List.count_append, hx1 x y]
        cases hm : mapHas matrix K <;> simp
  obtain ⟨hmidkey, hmident, hmidnd, hmide1, hmide2, hmids1, hmids2, hmidx⟩ :=
    hmid
  -- fold the tail segment
  have hmidlen : (processPair matrix (detectUpTo matrix cs0 i j)
      (i, j)).colliders.length = cs0.length := by
    rw [processPair_length]
    exact hlen1
  have hmidsh : ∀ k, shallowEq ((processPair matrix
      (detectUpTo matrix cs0 i j) (i, j)).colliders.getD k default)
      (cs0.getD k default) :=
    fun k => shallowEq_trans (processPair_getD_shallow _ _ _ k) (hsh1 k)
  have hseg2 := detect_segment matrix cs0 i j idI idJ K hidI hidJ hij hjn
    hids huniq P2 (processPair matrix (detectUpTo matrix cs0 i j) (i, j))
    hP2mem hmidlen hmidsh
  obtain ⟨-, -, hkey2, hent2, hnd2, hx2, he2, he2b, hs2, hs2b⟩ := hseg2
  -- final loop state facts
  have hFkey : mapHas (P2.foldl (processPair matrix)
      (processPair matrix (detectUpTo matrix cs0 i j)
        (i, j))).newCollisions K = pairTested matrix cs0 i j := by
    rw [hkey2, hmidkey]
  have hFent : ∀ en ∈ (P2.foldl (processPair matrix)
      (processPair matrix (detectUpTo matrix cs0 i j)
        (i, j))).newCollisions,
      en = (K, (idI, idJ)) ∨
      (en.1 ≠ K ∧ en.2 ≠ (idI, idJ) ∧ en.2 ≠ (idJ, idI)) := by
    intro en he
    rcases hent2 en he with h1 | h1
    · rcases hmident en h1 with h2 | h2
      · left
        exact h2
      · rcases hent1 en h2 with h3 | h3
        · cases h3
        · right
          exact h3
    · right
      exact h1
  have hFnd : ((P2.foldl (processPair matrix)
      (processPair matrix (detectUpTo matrix cs0 i j)
        (i, j))).newCollisions.map Prod.fst).Nodup :=
    hnd2 hmidnd
  -- split the pass into the loop result and the exit phase
  have hD : detectCollisions ⟨cs0, matrix⟩ =
      (⟨(P2.foldl (processPair matrix)
          (processPair matrix (detectUpTo matrix cs0 i j) (i, j))).colliders,
        (P2.foldl (processPair matrix)
          (processPair matrix (detectUpTo matrix cs0 i j)
            (i, j))).newCollisions⟩,
       (P2.foldl (processPair matrix)
          (processPair matrix (detectUpTo matrix cs0 i j) (i, j))).events ++
        matrix.flatMap (fun e =>
          if mapHas (P2.foldl (processPair matrix)
              (processPair matrix (detectUpTo matrix cs0 i j)
                (i, j))).newCollisions e.1 then []
          else [PhysEvent.exitEv e.2.1 e.2.2,
            PhysEvent.exitEv e.2.2 e.2.1])) := by
    simp only [detectCollisions]
    rw [hloop, exits_foldl, List.nil_append]
  have hDm : (detectCollisions ⟨cs0, matrix⟩).1.collisionMatrix =
      (P2.foldl (processPair matrix)
        (processPair matrix (detectUpTo matrix cs0 i j)
          (i, j))).newCollisions := by
    rw [hD]
  have hDe : (detectCollisions ⟨cs0, matrix⟩).2 =
      (P2.foldl (processPair matrix)
        (processPair matrix (detectUpTo matrix cs0 i j) (i, j))).events ++
      matrix.flatMap (fun e =>
        if mapHas (P2.foldl (processPair matrix)
            (processPair matrix (detectUpTo matrix cs0 i j)
              (i, j))).newCollisions e.1 then []
        else [PhysEvent.exitEv e.2.1 e.2.2,
          PhysEvent.exitEv e.2.2 e.2.1]) := by
    rw [hD]
  have hxcount := exits_count ((P2.foldl (processPair matrix)
      (processPair matrix (detectUpTo matrix cs0 i j)
        (i, j))).newCollisions) K idI idJ hne matrix hmK hmO hmnd
  refine ⟨?_, ?_, ?_, ?_, ?_, ?_, ?_, ?_, ?_, ?_⟩
  · rw [hDm]
    exact hFkey
  · rw [hDm]
    intro v hv
    rcases hFent (K, v) hv with h1 | h1
    · exact congrArg Prod.snd h1
    · exact absurd rfl h1.1
  · rw [hDm]
    intro e he hek
    rcases hFent e he with h1 | h1
    · rw [h1] at hek
      exact absurd rfl hek
    · exact ⟨h1.2.1, h1.2.2⟩
  · rw [hDm]
    exact hFnd
  · rw [hDe, List.count_append, he2, hmide1,
      exits_count_other _ _ _ (fun x y => by simp)]
    simp
  · rw [hDe, List.count_append, he2b, hmide2,
      exits_count_other _ _ _ (fun x y => by simp)]
    simp
  · rw [hDe, List.count_append, hs2, hmids1,
      exits_count_other _ _ _ (fun x y => by simp)]
    simp
  · rw [hDe, List.count_append, hs2b, hmids2,
      exits_count_other _ _ _ (fun x y => by simp)]
    simp
  · rw [hDe, List.count_append, hx2 idI idJ, hmidx idI idJ, hxcount.1]
    simp only [hFkey]
    simp
  · rw [hDe, List.count_append, hx2 idJ idI, hmidx idJ idI, hxcount.2]
    simp only [hFkey]
    simp

/-- Folding the loop body over any pairs of the pass never touches the
collider at a component-inactive index `m` and never delivers an enter or
stay callback carrying its identity. -/
theorem detect_skip_segment (matrix : List (String × ℕ × ℕ))
    (cs0 : List Collider) (m idM : ℕ)
    (hact : (cs0.getD m default).active = false)
    (hids : ∀ k, k < cs0.length → k ≠ m →
      (cs0.getD k default).id ≠ idM) :
    ∀ (Q : List (ℕ × ℕ)) (st : DetectState),
    (∀ q ∈ Q, q ∈ pairsUpTo cs0.length) →
    st.colliders.length = cs0.length →
    (∀ k, shallowEq (st.colliders.getD k default) (cs0.getD k default)) →
    ((Q.foldl (processPair matrix) st).colliders.length = cs0.length ∧
     (∀ k, shallowEq
       ((Q.foldl (processPair matrix) st).colliders.getD k default)
       (cs0.getD k default)) ∧
     ((Q.foldl (processPair matrix) st).colliders.getD m default =
       st.colliders.getD m default) ∧
     (∀ x,
       ((Q.foldl (processPair matrix) st).events.count
         (PhysEvent.enterEv idM x) =
         st.events.count (PhysEvent.enterEv idM x)) ∧
       ((Q.foldl (processPair matrix) st).events.count
         (PhysEvent.enterEv x idM) =
         st.events.count (PhysEvent.enterEv x idM)) ∧
       ((Q.foldl (processPair matrix) st).events.count
         (PhysEvent.stayEv idM x) =
         st.events.count (PhysEvent.stayEv idM x)) ∧
       ((Q.foldl (processPair matrix) st).events.count
         (PhysEvent.stayEv x idM) =
         st.events.count (PhysEvent.stayEv x idM)))) := by
  intro Q
  induction Q with
  | nil =>
    intro st hQ hlen hsh
    exact ⟨hlen, hsh, rfl, fun x => ⟨rfl, rfl, rfl, rfl⟩⟩
  | cons q Q ih =>
    intro st hQ hlen hsh
    have hqmem := hQ q (List.mem_cons_self _ _)
    obtain ⟨hq12, hq2n⟩ := mem_pairsUpTo hqmem
    have hQ2 : ∀ q2 ∈ Q, q2 ∈ pairsUpTo cs0.length :=
      fun q2 hq2 => hQ q2 (List.mem_cons_of_mem _ hq2)
    rw [List.foldl_cons]
    by_cases hm : q.1 = m ∨ q.2 = m
    · have hskip : processPair matrix st q = st := by
        apply processPair_skip
        rcases hm with hm | hm
        · left
          rw [hm, (hsh m).2.1]
          exact hact
        · right
          rw [hm, (hsh m).2.1]
          exact hact
      rw [hskip]
      exact ih st hQ2 hlen hsh
    · push_neg at hm
      have hlen1 : (processPair matrix st q).colliders.length =
          cs0.length := by
        rw [processPair_length]
        exact hlen
      have hsh1 : ∀ k,
          shallowEq ((processPair matrix st q).colliders.getD k default)
            (cs0.getD k default) :=
        fun k =>
          shallowEq_trans (processPair_getD_shallow matrix st q k) (hsh k)
      have hres := ih (processPair matrix st q) hQ2 hlen1 hsh1
      have haid : (st.colliders.getD q.1 default).id ≠ idM := by
        rw [(hsh q.1).1]
        exact hids q.1 (lt_trans hq12 hq2n) hm.1
      have hbid : (st.colliders.getD q.2 default).id ≠ idM := by
        rw [(hsh q.2).1]
        exact hids q.2 hq2n hm.2
      refine ⟨hres.1, hres.2.1, ?_, ?_⟩
      · rw [hres.2.2.1]
        exact processPair_getD_ne matrix st q m
          (fun hc => hm.1 hc.symm) (fun hc => hm.2 hc.symm)
      · intro x
        have hstep :
            (processPair matrix st q).events.count
              (PhysEvent.enterEv idM x) =
              st.events.count (PhysEvent.enterEv idM x) ∧
            (processPair matrix st q).events.count
              (PhysEvent.enterEv x idM) =
              st.events.count (PhysEvent.enterEv x idM) ∧
            (processPair matrix st q).events.count
              (PhysEvent.stayEv idM x) =
              st.events.count (PhysEvent.stayEv idM x) ∧
            (processPair matrix st q).events.count
              (PhysEvent.stayEv x idM) =
              st.events.count (PhysEvent.stayEv x idM) := by
          simp only [List.getD_eq_getElem?_getD] at haid hbid
          rcases processPair_events matrix st q with h | h | h <;>
            refine ⟨?_, ?_, ?_, ?_⟩ <;>
              simp [h, List.count_append, List.count_cons, haid, hbid,
                Ne.symm haid, Ne.symm hbid]
        refine ⟨?_, ?_, ?_, ?_⟩
        · rw [(hres.2.2.2 x).1, hstep.1]
        · rw [(hres.2.2.2 x).2.1, hstep.2.1]
        · rw [(hres.2.2.2 x).2.2.1, hstep.2.2.1]
        · rw [(hres.2.2.2 x).2.2.2, hstep.2.2.2]

/-- C9 (amended): the skip check of the detection loop reads the collider
Component `active` flag itself, so a component-inactive collider is
skipped entirely: the whole pass leaves its state untouched and delivers
no enter or stay callback carrying its identity (the owning game object
`active` flag is not consulted; an overlapping pair with inactive owners
but active components is processed, as the recorded counterexample
shows). -/
theorem component_inactive_collider_skipped (p : PhysicsState) (m : ℕ)
    (hact : (p.colliders.getD m default).active = false)
    (hids : ∀ k, k < p.colliders.length → k ≠ m →
      (p.colliders.getD k default).id ≠ (p.colliders.getD m default).id) :
    (detectCollisions p).1.colliders.getD m default =
      p.colliders.getD m default ∧
    ∀ x,
      (detectCollisions p).2.count
        (PhysEvent.enterEv (p.colliders.getD m default).id x) = 0 ∧
      (detectCollisions p).2.count
        (PhysEvent.enterEv x (p.colliders.getD m default).id) = 0 ∧
      (detectCollisions p).2.count
        (PhysEvent.stayEv (p.colliders.getD m default).id x) = 0 ∧
      (detectCollisions p).2.count
        (PhysEvent.stayEv x (p.colliders.getD m default).id) = 0 := by
  have hseg := detect_skip_segment p.collisionMatrix p.colliders m
    (p.colliders.getD m default).id hact hids
    (pairsUpTo p.colliders.length) ⟨p.colliders, [], []⟩
    (fun q hq => hq) rfl (fun k => shallowEq_refl _)
  have hD : detectCollisions p =
      (⟨((pairsUpTo p.colliders.length).foldl
          (processPair p.collisionMatrix)
          ⟨p.colliders, [], []⟩).colliders,
        ((pairsUpTo p.colliders.length).foldl
          (processPair p.collisionMatrix)
          ⟨p.colliders, [], []⟩).newCollisions⟩,
       ((pairsUpTo p.colliders.length).foldl
          (processPair p.collisionMatrix)
          ⟨p.colliders, [], []⟩).events ++
        p.collisionMatrix.flatMap (fun e =>
          if mapHas ((pairsUpTo p.colliders.length).foldl
              (processPair p.collisionMatrix)
              ⟨p.colliders, [], []⟩).newCollisions e.1 then []
          else [PhysEvent.exitEv e.2.1 e.2.2,
            PhysEvent.exitEv e.2.2 e.2.1])) := by
    simp only [detectCollisions]
    rw [exits_foldl, List.nil_append]
  have hD1 : (detectCollisions p).1.colliders =
      ((pairsUpTo p.colliders.length).foldl
        (processPair p.collisionMatrix) ⟨p.colliders, [], []⟩).colliders := by
    rw [hD]
  have hD2 : (detectCollisions p).2 =
      ((pairsUpTo p.colliders.length).foldl
        (processPair p.collisionMatrix) ⟨p.colliders, [], []⟩).events ++
      p.collisionMatrix.flatMap (fun e =>
        if mapHas ((pairsUpTo p.colliders.length).foldl
            (processPair p.collisionMatrix)
            ⟨p.colliders, [], []⟩).newCollisions e.1 then []
        else [PhysEvent.exitEv e.2.1 e.2.2,
          PhysEvent.exitEv e.2.2 e.2.1]) := by
    rw [hD]
  refine ⟨?_, ?_⟩
  · rw [hD1, hseg.2.2.1]
  · intro x
    refine ⟨?_, ?_, ?_, ?_⟩
    · rw [hD2, List.count_append, (hseg.2.2.2 x).1,
        exits_count_other _ _ _ (fun u v => by simp)]
      simp
    · rw [hD2, List.count_append, (hseg.2.2.2 x).2.1,
        exits_count_other _ _ _ (fun u v => by simp)]
      simp
    · rw [hD2, List.count_append, (hseg.2.2.2 x).2.2.1,
        exits_count_other _ _ _ (fun u v => by simp)]
      simp
    · rw [hD2, List.count_append, (hseg.2.2.2 x).2.2.2,
        exits_count_other _ _ _ (fun u v => by simp)]
      simp

/-- Witness for the amended C9 theorem: a concrete component-inactive
collider overlapping an active partner is left untouched and triggers no
enter or stay delivery. -/
theorem component_inactive_collider_skipped_witness :
    (detectCollisions ⟨[offA, offB], []⟩).1.colliders.getD 0 default =
      ([offA, offB] : List Collider).getD 0 default ∧
    (detectCollisions ⟨[offA, offB], []⟩).2.count
      (PhysEvent.enterEv 60 61) = 0 ∧
    (detectCollisions ⟨[offA, offB], []⟩).2.count
      (PhysEvent.stayEv 61 60) = 0 := by
  have h := component_inactive_collider_skipped ⟨[offA, offB], []⟩ 0 rfl
    (by
      intro k hk hk0
      have hk2 : k < 2 := hk
      have hk1 : k = 1 := by omega
      subst hk1
      decide)
  exact ⟨h.1, (h.2 61).1, (h.2 61).2.2.2⟩

/-- C3: for a pair `(i, j)` with stable distinct identities and a stable
pair key `K` no other pair shares, tested as colliding exactly on the
ticks of the window `[s, e)` and separated afterwards, the pass delivers
`onCollisionEnter` to both sides exactly once, at tick `s`; `stay` to both
sides exactly on the ticks strictly inside the window; `exit` to both
sides exactly once, at tick `e`, the first tick after the overlap ends
(present in the previous table, absent from the new one); and no further
enter, stay or exit for the pair while they remain separated. -/
theorem collision_lifecycle (css : ℕ → List Collider) (i j idI idJ : ℕ)
    (K : String) (s e : ℕ) (hse : s < e)
    (hidI : ∀ t, ((css t).getD i default).id = idI)
    (hidJ : ∀ t, ((css t).getD j default).id = idJ)
    (hne : idI ≠ idJ) (hij : i < j)
    (hjn : ∀ t, j < (css t).length)
    (hids : ∀ t k l, k < (css t).length → l < (css t).length → k ≠ l →
      ((css t).getD k default).id ≠ ((css t).getD l default).id)
    (hK : ∀ t, pairKey (css t) i j = K)
    (huniq : ∀ t k l, (k, l) ∈ pairsUpTo (css t).length →
      (k, l) ≠ (i, j) → pairKey (css t) k l ≠ K)
    (hT : ∀ t, pairTested (matrixAt css t) (css t) i j = true ↔
      (s ≤ t ∧ t < e)) :
    ∀ t,
    ((eventsAt css t).count (PhysEvent.enterEv idI idJ) =
      if t = s then 1 else 0) ∧
    ((eventsAt css t).count (PhysEvent.enterEv idJ idI) =
      if t = s then 1 else 0) ∧
    ((eventsAt css t).count (PhysEvent.stayEv idI idJ) =
      if s < t ∧ t < e then 1 else 0) ∧
    ((eventsAt css t).count (PhysEvent.stayEv idJ idI) =
      if s < t ∧ t < e then 1 else 0) ∧
    ((eventsAt css t).count (PhysEvent.exitEv idI idJ) =
      if t = e then 1 else 0) ∧
    ((eventsAt css t).count (PhysEvent.exitEv idJ idI) =
      if t = e then 1 else 0) := by
  have hinv : ∀ t,
      (mapHas (matrixAt css t) K = true ↔
        (1 ≤ t ∧ s ≤ t - 1 ∧ t - 1 < e)) ∧
      (∀ v, (K, v) ∈ matrixAt css t → v = (idI, idJ)) ∧
      (∀ en ∈ matrixAt css t, en.1 ≠ K →
        en.2 ≠ (idI, idJ) ∧ en.2 ≠ (idJ, idI)) ∧
      ((matrixAt css t).map Prod.fst).Nodup := by
    intro t
    induction t with
    | zero =>
      refine ⟨?_, ?_, ?_, ?_⟩
      · simp [matrixAt, mapHas]
      · intro v hv
        simp [matrixAt] at hv
      · intro en hen
        simp [matrixAt] at hen
      · simp [matrixAt]
    | succ t ih =>
      have hpass := detect_pass_pair (matrixAt css t) (css t) i j idI idJ K
        (hidI t) (hidJ t) hne hij (hjn t) (hids t) (hK t) (huniq t)
        ih.2.1 ih.2.2.1 ih.2.2.2
      refine ⟨?_, ?_, ?_, ?_⟩ <;> simp only [matrixAt]
      · rw [hpass.1, hT t]
        omega
      · exact hpass.2.1
      · exact hpass.2.2.1
      · exact hpass.2.2.2.1
  intro t
  have hI := hinv t
  have hpass := detect_pass_pair (matrixAt css t) (css t) i j idI idJ K
    (hidI t) (hidJ t) hne hij (hjn t) (hids t) (hK t) (huniq t)
    hI.2.1 hI.2.2.1 hI.2.2.2
  have hBf : (mapHas (matrixAt css t) K = false) ↔
      ¬(1 ≤ t ∧ s ≤ t - 1 ∧ t - 1 < e) := by
    rw [← hI.1]
    cases mapHas (matrixAt css t) K <;> simp
  have hTf : (pairTested (matrixAt css t) (css t) i j = false) ↔
      ¬(s ≤ t ∧ t < e) := by
    rw [← hT t]
    cases pairTested (matrixAt css t) (css t) i j <;> simp
  have hcE : (pairTested (matrixAt css t) (css t) i j = true ∧
      mapHas (matrixAt css t) K = false) ↔ t = s := by
    rw [hT t, hBf]
    omega
  have hcS : (pairTested (matrixAt css t) (css t) i j = true ∧
      mapHas (matrixAt css t) K = true) ↔ (s < t ∧ t < e) := by
    rw [hT t, hI.1]
    omega
  have hcX : (mapHas (matrixAt css t) K = true ∧
      pairTested (matrixAt css t) (css t) i j = false) ↔ t = e := by
    rw [hI.1, hTf]
    omega
  refine ⟨?_, ?_, ?_, ?_, ?_, ?_⟩
  · simp only [eventsAt]
    rw [hpass.2.2.2.2.1]
    simp only [hcE]
  · simp only [eventsAt]
    rw [hpass.2.2.2.2.2.1]
    simp only [hcE]
  · simp only [eventsAt]
    rw [hpass.2.2.2.2.2.2.1]
    simp only [hcS]
  · simp only [eventsAt]
    rw [hpass.2.2.2.2.2.2.2.1]
    simp only [hcS]
  · simp only [eventsAt]
    rw [hpass.2.2.2.2.2.2.2.2.1]
    simp only [hcX]
  · simp only [eventsAt]
    rw [hpass.2.2.2.2.2.2.2.2.2]
    simp only [hcX]

/-- Identities of the lifecycle scenario colliders are distinct at every
tick. -/
theorem cssLife_ids (t k l : ℕ) (hk : k < (cssLife t).length)
    (hl : l < (cssLife t).length) (hkl : k ≠ l) :
    ((cssLife t).getD k default).id ≠ ((cssLife t).getD l default).id := by
  have hk2 : k < 2 := hk
  have hl2 : l < 2 := hl
  have hc : (k = 0 ∧ l = 1) ∨ (k = 1 ∧ l = 0) := by omega
  rcases hc with ⟨h1, h2⟩ | ⟨h1, h2⟩ <;> subst h1 <;> subst h2 <;>
    simp [cssLife, lifeA, namedBox, List.getD]

/-- The lifecycle pair key is the stable string of the two display
names. -/
theorem cssLife_key (t : ℕ) : pairKey (cssLife t) 0 1 = "LA-LB" := rfl

/-- No other index pair of the two-collider lifecycle scenario exists, so
no other pair can share the key. -/
theorem cssLife_uniq (t k l : ℕ)
    (hmem : (k, l) ∈ pairsUpTo (cssLife t).length)
    (hkl : (k, l) ≠ (0, 1)) : pairKey (cssLife t) k l ≠ "LA-LB" := by
  exfalso
  apply hkl
  have h2 : (k, l) ∈ pairsUpTo 2 := hmem
  rw [show pairsUpTo 2 = [(0, 1)] from rfl] at h2
  simpa using h2

/-- The lifecycle pair is tested as colliding exactly on ticks 1 and 2. -/
theorem cssLife_tested (t : ℕ) :
    pairTested (matrixAt cssLife t) (cssLife t) 0 1 = true ↔
      (1 ≤ t ∧ t < 3) := by
  have hupto : detectUpTo (matrixAt cssLife t) (cssLife t) 0 1 =
      ⟨cssLife t, [], []⟩ := by
    rw [detectUpTo_eq]
    rw [show (pairsUpTo (cssLife t).length).takeWhile
        (fun q => q ≠ (0, 1)) = [] from rfl]
    rfl
  have hPT : pairTested (matrixAt cssLife t) (cssLife t) 0 1 =
      isCollidingPair (lifeA t) (namedBox 51 "LB" 5 0) := by
    simp only [pairTested]
    rw [hupto]
    simp [cssLife, List.getD, lifeA, namedBox]
  rw [hPT]
  by_cases ht : t = 1 ∨ t = 2
  · have hcol : isCollidingPair (lifeA t) (namedBox 51 "LB" 5 0) = true := by
      rcases ht with ht | ht <;> subst ht <;>
        norm_num [isCollidingPair, boxIntersects, lifeA, namedBox,
          Collider.getBounds, Collider.getWorldPosition]
    rw [hcol]
    constructor
    · intro
      omega
    · intro
      rfl
  · have hcol : isCollidingPair (lifeA t) (namedBox 51 "LB" 5 0) =
        false := by
      norm_num [isCollidingPair, boxIntersects, lifeA, namedBox,
        Collider.getBounds, Collider.getWorldPosition, ht]
    rw [hcol]
    constructor
    · intro hcon
      cases hcon
    · intro hcon
      exact absurd (by omega : t = 1 ∨ t = 2) ht

/-- Witness for the C3 lifecycle theorem: the concrete two-box scenario
overlapping on ticks 1 and 2 delivers enter at tick 1, stay at tick 2,
exit at tick 3, and nothing at ticks 0 and 4. -/
theorem collision_lifecycle_witness :
    (eventsAt cssLife 0).count (PhysEvent.enterEv 50 51) = 0 ∧
    (eventsAt cssLife 1).count (PhysEvent.enterEv 50 51) = 1 ∧
    (eventsAt cssLife 1).count (PhysEvent.stayEv 50 51) = 0 ∧
    (eventsAt cssLife 2).count (PhysEvent.enterEv 50 51) = 0 ∧
    (eventsAt cssLife 2).count (PhysEvent.stayEv 51 50) = 1 ∧
    (eventsAt cssLife 2).count (PhysEvent.exitEv 50 51) = 0 ∧
    (eventsAt cssLife 3).count (PhysEvent.exitEv 50 51) = 1 ∧
    (eventsAt cssLife 3).count (PhysEvent.exitEv 51 50) = 1 ∧
    (eventsAt cssLife 4).count (PhysEvent.exitEv 50 51) = 0 ∧
    (eventsAt cssLife 4).count (PhysEvent.enterEv 50 51) = 0 := by
  have h := collision_lifecycle cssLife 0 1 50 51 "LA-LB" 1 3
    (by norm_num) (fun t => rfl) (fun t => rfl) (by norm_num)
    (by norm_num) (fun t => by norm_num [cssLife])
    cssLife_ids cssLife_key cssLife_uniq cssLife_tested
  refine ⟨?_, ?_, ?_, ?_, ?_, ?_, ?_, ?_, ?_, ?_⟩
  · rw [(h 0).1]
    norm_num
  · rw [(h 1).1]
    norm_num
  · rw [(h 1).2.2.1]
    norm_num
  · rw [(h 2).1]
    norm_num
  · rw [(h 2).2.2.2.1]
    norm_num
  · rw [(h 2).2.2.2.2.1]
    norm_num
  · rw [(h 3).2.2.2.2.1]
    norm_num
  · rw [(h 3).2.2.2.2.2]
    norm_num
  · rw [(h 4).2.2.2.2.1]
    norm_num
  · rw [(h 4).1]
    norm_num

end BounceEngine
